import Mathlib

/-!
Verification development for the AutOSINT engine core.

Shallow embedding of the Rust sources under crates/engine and crates/common.
External crates (serde_json, strsim, chrono, uuid, neo4rs, sqlx, tokio) and
the backing services (Neo4j, Postgres, Redis, the chat and embedding HTTP
APIs) are modelled as parameters: JSON values are a type parameter, database
probes are functions supplied to the definitions, and the LLM is a sequence
of responses (exactly as the repository's own MockLlm test double models it).
Machine integers (u32/u64/i32) are modelled as Nat/Int; no arithmetic here
approaches overflow, and the source relies on none.  f64 scores, thresholds
and backoff multipliers are modelled as rationals.
-/

namespace AutOSINT

/-! ## LLM session types — crates/engine/src/llm/types.rs -/

/-- Conversation role (types.rs, enum Role). -/
inductive Role where
  | user
  | assistant
deriving DecidableEq, Repr

/-- A content block in a message (types.rs, enum ContentBlock).  The payload
type of tool inputs (serde_json::Value) is the type parameter J. -/
inductive ContentBlock (J : Type) where
  | text (text : String)
  | toolUse (id : String) (name : String) (input : J)
  | toolResult (tool_use_id : String) (content : String) ( is_error : Option Bool)
deriving DecidableEq, Repr

/-- A message in the conversation history (types.rs, struct Message). -/
structure Message (J : Type) where
  role : Role
  content : List (ContentBlock J)
deriving DecidableEq, Repr

/-- Why the LLM stopped generating (types.rs, enum StopReason). -/
inductive StopReason where
  | endTurn
  | toolUse
  | maxTokens
  | stopSequence
deriving DecidableEq, Repr

/-- Token usage from a single API call (types.rs, struct TokenUsage). -/
structure TokenUsage where
  input_tokens : Nat
  output_tokens : Nat
deriving DecidableEq, Repr

/-- Parsed response from an LLM API call (types.rs, struct LlmResponse). -/
structure LlmResponse (J : Type) where
  content : List (ContentBlock J)
  stop_reason : StopReason
  usage : TokenUsage
deriving DecidableEq, Repr

/-! ## LLM errors — crates/engine/src/llm/mod.rs -/

/-- Errors from LLM API calls (mod.rs, enum LlmError).  The Rust Parse
variant is named parseError here. -/
inductive LlmError where
  | http (msg : String)
  | auth (msg : String)
  | rateLimited (retry_after : Option Nat)
  | contextWindowExceeded (msg : String)
  | api (msg : String)
  | parseError (msg : String)
deriving DecidableEq, Repr

/-- Whether this error should not be retried (mod.rs, LlmError::is_non_retryable). -/
def LlmError.is_non_retryable : LlmError → Bool
  | .auth _ => true
  | .contextWindowExceeded _ => true
  | _ => false

/-- Display form of an LlmError, following the thiserror format strings in
mod.rs.  The rate-limited case renders the Option with Rust's Debug format. -/
def LlmError.toMessage : LlmError → String
  | .http m => "LLM HTTP error: " ++ m
  | .auth m => "LLM auth error: " ++ m
  | .rateLimited (some s) => "LLM rate limited (retry after Some(" ++ toString s ++ ")s)"
  | .rateLimited none => "LLM rate limited (retry after Nones)"
  | .contextWindowExceeded m => "LLM context window exceeded: " ++ m
  | .api m => "LLM API error: " ++ m
  | .parseError m => "LLM response parse error: " ++ m

/-! ## Agentic session loop — crates/engine/src/llm/session.rs -/

/-- Accumulated statistics for a session (session.rs, struct SessionStats). -/
structure SessionStats where
  turns : Nat
  tool_calls : Nat
  total_input_tokens : Nat
  total_output_tokens : Nat
  malformed_tool_calls : Nat
deriving DecidableEq, Repr

/-- SessionStats::default(). -/
def initStats : SessionStats := ⟨0, 0, 0, 0, 0⟩

/-- Configuration for the agentic loop (session.rs, struct SessionConfig). -/
structure SessionConfig where
  max_turns : Nat
  max_consecutive_malformed : Nat
deriving DecidableEq, Repr

/-- Result from executing a single tool call (session.rs, struct ToolExecutionResult). -/
structure ToolExecutionResult where
  content : String
  is_error : Bool
  is_malformed : Bool
deriving DecidableEq, Repr

/-- Result of a completed agentic session (session.rs, enum SessionResult). -/
inductive SessionResult where
  | completed (final_text : String) (stats : SessionStats)
  | maxTurnsReached (stats : SessionStats)
  | malformedToolCallLimit (stats : SessionStats)
  | failed (error : String) (stats : SessionStats)
deriving DecidableEq, Repr

/-- Extract tool use blocks from a response's content (session.rs lines 118-127). -/
def toolUses {J : Type} (blocks : List (ContentBlock J)) : List (String × String × J) :=
  blocks.filterMap fun b =>
    match b with
    | .toolUse id name input => some (id, name, input)
    | _ => none

/-- Concatenated text of a response with no tool calls (session.rs lines 131-139). -/
def finalText {J : Type} (blocks : List (ContentBlock J)) : String :=
  String.intercalate "\n" (blocks.filterMap fun b =>
    match b with
    | .text t => some t
    | _ => none)

/-- Execute each tool call of one turn and collect the results
(session.rs lines 145-163).  Returns the updated stats, the updated
consecutive-malformed counter, and the tool-result blocks in order. -/
def execToolBatch {J : Type} (executor : String → J → ToolExecutionResult) :
    List (String × String × J) → SessionStats → Nat →
    SessionStats × Nat × List (ContentBlock J)
  | [], stats, consecutive => (stats, consecutive, [])
  | (id, name, input) :: rest, stats, consecutive =>
      let stats := { stats with tool_calls := stats.tool_calls + 1 }
      let result := executor name input
      let consecutive := if result.is_malformed then consecutive + 1 else 0
      let stats :=
        if result.is_malformed then
          { stats with malformed_tool_calls := stats.malformed_tool_calls + 1 }
        else stats
      let rec_result := execToolBatch executor rest stats consecutive
      (rec_result.1, rec_result.2.1,
        ContentBlock.toolResult id result.content
          (if result.is_error then some true else none) :: rec_result.2.2)

/-- One run of the loop body of run_session (session.rs lines 86-179).

The external LLM is modelled as the sequence of outcomes of successive
chat calls (chat n is the result of the (n+1)-th call), exactly as the
repository's own MockLlm test double does.  The fuel argument is only a
termination device: every iteration increments stats.turns and the loop
returns as soon as stats.turns is at least max_turns, so with fuel
exceeding max_turns - stats.turns the fuel-exhaustion branch is never
taken.  The second component of the result counts chat calls made. -/
def runSessionGo {J : Type} (chat : Nat → Except LlmError (LlmResponse J))
    (executor : String → J → ToolExecutionResult) (config : SessionConfig) :
    Nat → List (Message J) → SessionStats → Nat → Nat → SessionResult × Nat
  | 0, _, stats, _, chatCalls => (SessionResult.maxTurnsReached stats, chatCalls)
  | fuel + 1, history, stats, consecutive, chatCalls =>
    if stats.turns ≥ config.max_turns then
      (SessionResult.maxTurnsReached stats, chatCalls)
    else
      let stats := { stats with turns := stats.turns + 1 }
      match chat chatCalls with
      | .error e => (SessionResult.failed e.toMessage stats, chatCalls + 1)
      | .ok response =>
        let stats := { stats with
          total_input_tokens := stats.total_input_tokens + response.usage.input_tokens,
          total_output_tokens := stats.total_output_tokens + response.usage.output_tokens }
        let history := history ++ [Message.mk Role.assistant response.content]
        let tool_uses := toolUses response.content
        if tool_uses.isEmpty then
          (SessionResult.completed (finalText response.content) stats, chatCalls + 1)
        else
          let batch := execToolBatch executor tool_uses stats consecutive
          if batch.2.1 ≥ config.max_consecutive_malformed then
            (SessionResult.malformedToolCallLimit batch.1, chatCalls + 1)
          else
            runSessionGo chat executor config fuel
              (history ++ [Message.mk Role.user batch.2.2]) batch.1 batch.2.1 (chatCalls + 1)

/-- Run the generic agentic loop (session.rs, run_session).  The system
prompt does not influence the modelled control flow (it is forwarded to the
chat interface, which is a parameter here); the initial history is seeded
with the user message as in the source. -/
def run_session {J : Type} (chat : Nat → Except LlmError (LlmResponse J))
    (executor : String → J → ToolExecutionResult) (config : SessionConfig)
    (initial_user_message : String) : SessionResult × Nat :=
  runSessionGo chat executor config (config.max_turns + 1)
    [Message.mk Role.user [ContentBlock.text initial_user_message]] initStats 0 0

/-! ## Analyst outcome — crates/engine/src/analyst/session.rs -/

/-- Outcome of an Analyst session (analyst/session.rs, enum AnalystOutcome). -/
inductive AnalystOutcome where
  | workOrdersCreated (count : Nat)
  | assessmentProduced
  | emptySession
  | failed (error : String)
deriving DecidableEq, Repr

/-- Outcome derivation of AnalystSession::run (analyst/session.rs lines
128-149): the match on the session result, reading the session counters
work_orders_created and assessment_produced only in the Completed arm. -/
def analystOutcome (session_result : SessionResult) (work_orders_created : Nat)
    (assessment_produced : Bool) : AnalystOutcome :=
  match session_result with
  | SessionResult.failed error _ => AnalystOutcome.failed error
  | SessionResult.maxTurnsReached _ => AnalystOutcome.failed "Max turns reached"
  | SessionResult.malformedToolCallLimit _ =>
      AnalystOutcome.failed "Malformed tool call limit reached"
  | SessionResult.completed _ _ =>
      if assessment_produced then AnalystOutcome.assessmentProduced
      else if work_orders_created > 0 then
        AnalystOutcome.workOrdersCreated work_orders_created
      else AnalystOutcome.emptySession

/-! ## Tool registry — crates/engine/src/tools/registry.rs -/

/-- Whether the first character list is a prefix of the second. -/
def listStartsWith : List Char → List Char → Bool
  | [], _ => true
  | _ :: _, [] => false
  | p :: ps, c :: cs => p == c && listStartsWith ps cs

/-- Whether the first character list occurs as a contiguous run in the second. -/
def listFindSub : List Char → List Char → Bool
  | pat, [] => listStartsWith pat []
  | pat, c :: cs => listStartsWith pat (c :: cs) || listFindSub pat cs

/-- Rust str::contains for a literal pattern: true when the pattern occurs
as a substring of the string. -/
def containsSubstring (msg pat : String) : Bool := listFindSub pat.toList msg.toList

/-- The malformed-call heuristic of the registry (registry.rs lines 188-190
and 264-266): an error message is treated as a serde decode failure when it
contains one of three substrings. -/
def classifyMalformed (msg : String) : Bool :=
  containsSubstring msg "invalid type" || containsSubstring msg "missing field"
    || containsSubstring msg "expected"

/-- The ToolExecutor closure built by ToolRegistry::as_executor
(registry.rs lines 201-276).  handlers maps a tool name to its handler;
a handler takes the JSON arguments and returns a JSON payload or an error
string.  Serialization of the payload (serde_json::to_string) is a
parameter. -/
def executorResult {J B : Type} (serialize : B → String)
    (handlers : String → Option (J → Except String B)) (name : String) (args : J) :
    ToolExecutionResult :=
  match handlers name with
  | none =>
      ⟨"Unknown tool: '" ++ name ++ "'. Check tool name and try again.", true, true⟩
  | some handler =>
    match handler args with
    | Except.ok value => ⟨serialize value, false, false⟩
    | Except.error msg => ⟨msg, true, classifyMalformed msg⟩

/-- The decode-then-run pipeline every handler follows (for example
create_claim.rs lines 39-40): serde decoding of the JSON arguments into the
typed record, with decode failures prefixed "Invalid arguments: ", then the
domain body. -/
def runHandler {J T B : Type} (decode : J → Except String T)
    (body : T → Except String B) (args : J) : Except String B :=
  match decode args with
  | Except.error e => Except.error ("Invalid arguments: " ++ e)
  | Except.ok t => body t

/-! ## Chat retry wrapper — crates/engine/src/llm/mod.rs -/

/-- Retry parameters (common/src/config.rs, struct RetryConfig).  The f64
backoff multiplier is modelled as a rational. -/
structure RetryConfigM where
  max_attempts : Nat
  initial_backoff_ms : Nat
  max_backoff_ms : Nat
  backoff_multiplier : ℚ
  jitter : Bool
deriving DecidableEq, Repr

/-- compute_jitter (mod.rs lines 181-192): a hash of the attempt number and
the current clock nanos, reduced modulo backoff_ms / 2 + 1.  The hash value
is an arbitrary natural supplied by the caller of the model. -/
def computeJitter (hash : Nat) (backoff_ms : Nat) : Nat := hash % (backoff_ms / 2 + 1)

/-- The backoff update after a non-rate-limited retry (mod.rs lines
135-136): backoff := min((backoff as f64 * multiplier) as u64, max).  The
f64-to-u64 cast truncates toward zero, i.e. floor on the non-negative
values involved (saturating at zero for a negative product). -/
def nextBackoff (cfg : RetryConfigM) (backoff_ms : Nat) : Nat :=
  min (((backoff_ms : ℚ) * cfg.backoff_multiplier).floor.toNat) cfg.max_backoff_ms

/-- Observable trace of one LlmClient::chat invocation: the final result,
the number of attempts made, and the sequence of sleep durations (ms). -/
structure RetryOutcome (R : Type) where
  result : Except LlmError R
  attempts : Nat
  sleeps : List Nat

/-- The retry loop of LlmClient::chat (mod.rs lines 91-140).  send_once is
modelled as the sequence of attempt outcomes (attemptResult a is the result
of the a-th attempt); the jitter hash per attempt is a parameter.  fuel is
only a termination device: every retry increments the attempt counter and
the loop returns once the counter reaches max_attempts, so with fuel
exceeding max_attempts - attempt the fuel-exhaustion branch is never
taken. -/
def chatRetryGo {R : Type} (attemptResult : Nat → Except LlmError R)
    (jitterHash : Nat → Nat) (cfg : RetryConfigM) :
    Nat → Nat → Nat → List Nat → RetryOutcome R
  | 0, attempt, _, sleeps =>
      ⟨Except.error (LlmError.api "retry loop exhausted fuel"), attempt, sleeps⟩
  | fuel + 1, attempt, backoff_ms, sleeps =>
    let a := attempt + 1
    match attemptResult a with
    | Except.ok r => ⟨Except.ok r, a, sleeps⟩
    | Except.error e =>
      if e.is_non_retryable then ⟨Except.error e, a, sleeps⟩
      else
        match e with
        | LlmError.rateLimited retry_after =>
          if a ≥ cfg.max_attempts then
            ⟨Except.error (LlmError.rateLimited retry_after), a, sleeps⟩
          else
            let wait := match retry_after with
              | some s => s * 1000
              | none => backoff_ms
            chatRetryGo attemptResult jitterHash cfg fuel a backoff_ms (sleeps ++ [wait])
        | _ =>
          if a ≥ cfg.max_attempts then ⟨Except.error e, a, sleeps⟩
          else
            let jitter := if cfg.jitter then computeJitter (jitterHash a) backoff_ms else 0
            let wait := backoff_ms + jitter
            chatRetryGo attemptResult jitterHash cfg fuel a (nextBackoff cfg backoff_ms)
              (sleeps ++ [wait])

/-- LlmClient::chat: run the retry loop from attempt 0 with the initial
backoff (mod.rs lines 97-98). -/
def llmChat {R : Type} (attemptResult : Nat → Except LlmError R)
    (jitterHash : Nat → Nat) (cfg : RetryConfigM) : RetryOutcome R :=
  chatRetryGo attemptResult jitterHash cfg (cfg.max_attempts + 1) 0
    cfg.initial_backoff_ms []

/-! ## Store status updates — crates/engine/src/store/{investigations,work_orders}.rs -/

/-- Investigation status (common/src/types/investigation.rs). -/
inductive InvestigationStatus where
  | pending
  | analystRunning
  | processing
  | suspended
  | completed
  | failed
deriving DecidableEq, Repr

/-- InvestigationStatus::is_terminal. -/
def InvestigationStatus.is_terminal : InvestigationStatus → Bool
  | .completed => true
  | .failed => true
  | _ => false

/-- Work-order status (common/src/types/work_order.rs). -/
inductive WorkOrderStatus where
  | queued
  | processing
  | completed
  | failed
deriving DecidableEq, Repr

/-- SQL COALESCE of two nullable values: the first non-null argument. -/
def coalesce {A : Type} (new old : Option A) : Option A :=
  match new with
  | some v => some v
  | none => old

/-- The columns of the investigations table touched by
update_investigation_status; timestamps are model instants (Nat). -/
structure InvestigationRow where
  status : InvestigationStatus
  cycle_count : Int
  completed_at : Option Nat
deriving DecidableEq, Repr

/-- update_investigation_status (store/investigations.rs lines 58-90): the
single row UPDATE sets the status, adds the cycle increment, and sets
completed_at to COALESCE(new_value, completed_at) where new_value is the
current instant when the new status is terminal and NULL otherwise. -/
def update_investigation_status (row : InvestigationRow)
    (status : InvestigationStatus) (increment_cycle : Bool) (now : Nat) :
    InvestigationRow :=
  let completed_at : Option Nat := if status.is_terminal then some now else none
  let cycle_increment : Int := if increment_cycle then 1 else 0
  { status := status,
    cycle_count := row.cycle_count + cycle_increment,
    completed_at := coalesce completed_at row.completed_at }

/-- The columns of the work_orders table touched by update_work_order_status. -/
structure WorkOrderRow where
  status : WorkOrderStatus
  processor_id : Option String
  claims_produced_count : Option Int
  completed_at : Option Nat
deriving DecidableEq, Repr

/-- update_work_order_status (store/work_orders.rs lines 64-94): sets the
status and COALESCEs processor_id, claims_produced_count and completed_at,
where the completed_at argument is the current instant exactly when the new
status is Completed or Failed. -/
def update_work_order_status (row : WorkOrderRow) (status : WorkOrderStatus)
    (processor_id : Option String) (claims_count : Option Int) (now : Nat) :
    WorkOrderRow :=
  let is_terminal :=
    match status with
    | WorkOrderStatus.completed => true
    | WorkOrderStatus.failed => true
    | _ => false
  let completed_at : Option Nat := if is_terminal then some now else none
  { status := status,
    processor_id := coalesce processor_id row.processor_id,
    claims_produced_count := coalesce claims_count row.claims_produced_count,
    completed_at := coalesce completed_at row.completed_at }

/-! ## Claim attribute enums — crates/common/src/types/claim.rs -/

/-- Attribution depth (claim.rs, enum AttributionDepth). -/
inductive AttributionDepth where
  | primary
  | secondhand
  | indirect
deriving DecidableEq, Repr

/-- Information type (claim.rs, enum InformationType). -/
inductive InformationType where
  | assertion
  | analysis
  | discourse
  | testimony
deriving DecidableEq, Repr

/-! ## create_claim handler validation — crates/engine/src/tools/handlers/create_claim.rs -/

/-- Typed arguments of the create_claim tool (create_claim.rs, struct Args). -/
structure CreateClaimArgs where
  content : String
  source_entity_id : String
  published_timestamp : String
  attribution_depth : String
  information_type : String
  referenced_entity_ids : List String
  raw_source_link : Option String
deriving DecidableEq, Repr

/-- Attribution-depth string parsing in the handler (create_claim.rs lines 48-53). -/
def parseAttributionDepthArg : String → Except String AttributionDepth
  | "primary" => Except.ok AttributionDepth.primary
  | "secondhand" => Except.ok AttributionDepth.secondhand
  | "secondary" => Except.ok AttributionDepth.secondhand
  | "indirect" => Except.ok AttributionDepth.indirect
  | "tertiary" => Except.ok AttributionDepth.indirect
  | other => Except.error ("Invalid attribution_depth: '" ++ other ++ "'")

/-- Information-type string parsing in the handler (create_claim.rs lines 55-66). -/
def parseInformationTypeArg : String → Except String InformationType
  | "assertion" => Except.ok InformationType.assertion
  | "analysis" => Except.ok InformationType.analysis
  | "discourse" => Except.ok InformationType.discourse
  | "testimony" => Except.ok InformationType.testimony
  | other =>
      Except.error ("Invalid information_type: '" ++ other
        ++ "'. Use 'assertion', 'analysis', 'discourse', or 'testimony'.")

/-- The argument-validation chain of create_claim's handler body after a
successful serde decode (create_claim.rs lines 42-83).  Uuid parsing (uuid
crate) and RFC3339 parsing (chrono crate) are external and supplied as
parameters; on an invalid timestamp the handler returns the domain error
string "Invalid published_timestamp (expected RFC3339): <chrono error>". -/
def createClaimValidate {U T : Type} (parseUuid : String → Except String U)
    (parseRfc3339 : String → Except String T) (args : CreateClaimArgs) :
    Except String (U × AttributionDepth × InformationType × T × List U) := do
  let sid ← match parseUuid args.source_entity_id with
    | Except.ok u => Except.ok u
    | Except.error e => Except.error ("Invalid source_entity_id: " ++ e)
  let ad ← parseAttributionDepthArg args.attribution_depth
  let it ← parseInformationTypeArg args.information_type
  let ts ← match parseRfc3339 args.published_timestamp with
    | Except.ok t => Except.ok t
    | Except.error e =>
        Except.error ("Invalid published_timestamp (expected RFC3339): " ++ e)
  let refs ← args.referenced_entity_ids.mapM fun s =>
    match parseUuid s with
    | Except.ok u => Except.ok u
    | Except.error e =>
        Except.error ("Invalid referenced_entity_id '" ++ s ++ "': " ++ e)
  Except.ok (sid, ad, it, ts, refs)

/-! ## Claim graph write and read-back — crates/engine/src/graph/claims.rs and conversions.rs -/

/-- The attribution-depth serialization in GraphClient::create_claim
(graph/claims.rs lines 47-50).  The source match has arms for Primary and
Secondhand only — it is non-exhaustive over the three-variant enum (it does
not compile as written) and has no value for Indirect, modelled as none. -/
def attributionDepthStr : AttributionDepth → Option String
  | AttributionDepth.primary => some "primary"
  | AttributionDepth.secondhand => some "secondhand"
  | AttributionDepth.indirect => none

/-- The properties of a Claim node as written by create_claim's CREATE
statement (graph/claims.rs lines 62-96): id, content, both timestamps,
attribution_depth, embedding_pending, optionally raw_source_link and
embedding.  information_type is an Option here because the node may or may
not carry the property; create_claim never writes it. -/
structure ClaimNodeProps where
  id : String
  content : String
  published_timestamp : String
  ingested_timestamp : String
  attribution_depth : String
  embedding_pending : Bool
  raw_source_link : Option String
  embedding : Option (List ℚ)
  information_type : Option String
deriving DecidableEq, Repr

/-- The claim-record fields create_claim reads when building the node
(common/src/types/claim.rs, struct Claim); the timestamps are carried
already formatted (the output of format_datetime). -/
structure ClaimRec where
  id : String
  content : String
  published_timestamp : String
  ingested_timestamp : String
  attribution_depth : AttributionDepth
  information_type : InformationType
  raw_source_link : Option String
deriving DecidableEq, Repr

/-- The node created by GraphClient::create_claim (graph/claims.rs lines
41-100): embedding_pending is the absence of an embedding, raw_source_link
and embedding are SET when present, information_type is never written, and
the attribution string comes from the two-arm match (none for Indirect). -/
def createClaimNode (claim : ClaimRec) (embedding : Option (List ℚ)) :
    Option ClaimNodeProps :=
  match attributionDepthStr claim.attribution_depth with
  | none => none
  | some s =>
      some { id := claim.id,
             content := claim.content,
             published_timestamp := claim.published_timestamp,
             ingested_timestamp := claim.ingested_timestamp,
             attribution_depth := s,
             embedding_pending := embedding.isNone,
             raw_source_link := claim.raw_source_link,
             embedding := embedding,
             information_type := none }

/-- node_to_claim's attribution-depth parsing (graph/conversions.rs lines
208-218). -/
def parseAttributionDepthNode : String → Except String AttributionDepth
  | "primary" => Except.ok AttributionDepth.primary
  | "secondhand" => Except.ok AttributionDepth.secondhand
  | "indirect" => Except.ok AttributionDepth.indirect
  | other => Except.error ("Unknown attribution_depth: '" ++ other ++ "'")

/-- node_to_claim's information-type parsing with the backward-compat
default (graph/conversions.rs lines 220-232): a node without the property
parses as Assertion. -/
def parseInformationTypeNode : Option String → Except String InformationType
  | some "assertion" => Except.ok InformationType.assertion
  | none => Except.ok InformationType.assertion
  | some "analysis" => Except.ok InformationType.analysis
  | some "discourse" => Except.ok InformationType.discourse
  | some "testimony" => Except.ok InformationType.testimony
  | some other => Except.error ("Unknown information_type: '" ++ other ++ "'")

/-- The claim-attribute portion of node_to_claim (conversions.rs lines
191-247): parse the attribution depth and the information type back from
the node's properties. -/
def nodeToClaimAttrs (node : ClaimNodeProps) :
    Except String (AttributionDepth × InformationType) := do
  let ad ← parseAttributionDepthNode node.attribution_depth
  let it ← parseInformationTypeNode node.information_type
  Except.ok (ad, it)

/-! ## Entity deduplication pipeline — crates/engine/src/graph/dedup.rs -/

/-- Case folding (Rust str::to_lowercase), modelled character-wise. -/
def strToLower (s : String) : String := String.mk (s.toList.map Char.toLower)

/-- The entity fields the dedup pipeline reads from a fulltext candidate. -/
structure DedupEntity where
  id : Nat
  canonical_name : String
  aliases : List String
deriving DecidableEq, Repr

/-- Dedup thresholds (common/src/config.rs, struct DedupConfig); the f64
thresholds are modelled as rationals. -/
structure DedupConfigM where
  fuzzy_threshold : ℚ
  embedding_threshold : ℚ
deriving DecidableEq, Repr

/-- Which dedup pipeline stage produced the match (dedup.rs, enum DedupStage). -/
inductive DedupStage where
  | exactString
  | fuzzyString
  | embeddingSimilarity
  | llmJudgment
deriving DecidableEq, Repr

/-- Result of a deduplication check (dedup.rs, enum DedupResult). -/
inductive DedupResult where
  | exactMatch (id : Nat)
  | probableMatch (entity_id : Nat) (confidence : ℚ) (stage : DedupStage)
  | noMatch
deriving DecidableEq, Repr

/-- The three Neo4j index probes the pipeline issues, abstracted as
functions of the query: the case-folded canonical-name equality query
(dedup.rs lines 126-150), the fulltext probe whose LIMIT 10 caps the
returned candidate list (lines 155-161 and 202-208), and the top-1 result
of the k-NN vector query with k = 5 (lines 265-272). -/
structure GraphProbes where
  canonicalExact : String → Option Nat
  fulltext : String → List DedupEntity
  vectorTop : List ℚ → Option (DedupEntity × ℚ)

/-- Stage 1: exact match on canonical_name or alias (dedup.rs lines
123-193).  The canonical-name query runs on the lowercased name; a miss is
followed by a fulltext probe on the escaped name whose candidates are
checked for a case-insensitive alias match, then a canonical match.
escape_lucene_query is supplied as a parameter. -/
def exact_string_match (db : GraphProbes) (escape : String → String)
    (name : String) : Option Nat :=
  let name_lower := strToLower name
  match db.canonicalExact name_lower with
  | some id => some id
  | none =>
    (db.fulltext (escape name)).findSome? fun e =>
      if e.aliases.any fun a => strToLower a == name_lower then some e.id
      else if strToLower e.canonical_name == name_lower then some e.id
      else none

/-- The per-candidate fuzzy score (dedup.rs lines 229-240): Jaro-Winkler of
the lowercased name against the lowercased canonical name, and against
every lowercased alias folding with max from 0, best of the two.  The
Jaro-Winkler similarity (strsim crate) is a parameter. -/
def entityFuzzyScore (jw : String → String → ℚ) (name : String)
    (e : DedupEntity) : ℚ :=
  let jw_score := jw (strToLower name) (strToLower e.canonical_name)
  let best_alias_score :=
    e.aliases.foldl (fun acc a => max acc (jw (strToLower name) (strToLower a))) 0
  max jw_score best_alias_score

/-- The best-match accumulator update of stage 2 (dedup.rs lines 242-252):
candidates scoring at least the threshold replace the running best exactly
when they score strictly higher. -/
def fuzzyStep (jw : String → String → ℚ) (cfg : DedupConfigM) (name : String)
    (best : Option (Nat × ℚ)) (e : DedupEntity) : Option (Nat × ℚ) :=
  let score := entityFuzzyScore jw name e
  if cfg.fuzzy_threshold ≤ score then
    match best with
    | some (_, existing) => if existing < score then some (e.id, score) else best
    | none => some (e.id, score)
  else best

/-- Stage 2: fuzzy string match over the fulltext candidates (dedup.rs
lines 196-256).  The kind argument is unused by the source as well. -/
def fuzzy_string_match (jw : String → String → ℚ) (cfg : DedupConfigM)
    (db : GraphProbes) (escape : String → String) (name _kind : String) :
    Option (Nat × ℚ) :=
  (db.fulltext (escape name)).foldl (fuzzyStep jw cfg name) none

/-- Stage 3: embedding similarity via the vector index (dedup.rs lines
259-300): the single top-scoring k-NN candidate wins iff its score is at
least the embedding threshold. -/
def embedding_similarity_match (cfg : DedupConfigM) (db : GraphProbes)
    (embedding : List ℚ) : Option (Nat × ℚ) :=
  match db.vectorTop embedding with
  | some (e, score) =>
      if cfg.embedding_threshold ≤ score then some (e.id, score) else none
  | none => none

/-- The cascading pipeline EntityDedup::find_duplicate (dedup.rs lines
69-120), short-circuiting on the first hit; stage 3 runs only when a
candidate embedding is supplied; the stage-4 LLM judgment is a no-op in the
source (the judge is always absent). -/
def find_duplicate (jw : String → String → ℚ) (cfg : DedupConfigM)
    (db : GraphProbes) (escape : String → String) (name kind : String)
    (embedding : Option (List ℚ)) : DedupResult :=
  match exact_string_match db escape name with
  | some entity_id => DedupResult.exactMatch entity_id
  | none =>
    match fuzzy_string_match jw cfg db escape name kind with
    | some (entity_id, confidence) =>
        DedupResult.probableMatch entity_id confidence DedupStage.fuzzyString
    | none =>
      match embedding with
      | some emb =>
        match embedding_similarity_match cfg db emb with
        | some (entity_id, confidence) =>
            DedupResult.probableMatch entity_id confidence DedupStage.embeddingSimilarity
        | none => DedupResult.noMatch
      | none => DedupResult.noMatch

/-! ## Circuit breaker — crates/engine/src/circuit_breaker.rs -/

/-- Circuit state (circuit_breaker.rs, enum CircuitState).  The Rust Open
variant is named opened here because open is a Lean keyword. -/
inductive CircuitState where
  | closed
  | opened
  | halfOpen
deriving DecidableEq, Repr

/-- Breaker state: the atomic failure counter, the configured threshold and
cooldown, and the mutex-guarded (state, last_failure).  Instants are model
times (Nat); durations are in the same unit. -/
structure CircuitBreaker where
  failure_count : Nat
  failure_threshold : Nat
  cooldown : Nat
  state : CircuitState
  last_failure : Option Nat
deriving DecidableEq, Repr

/-- CircuitBreaker::new (circuit_breaker.rs lines 34-45). -/
def CircuitBreaker.new (failure_threshold cooldown : Nat) : CircuitBreaker :=
  ⟨0, failure_threshold, cooldown, CircuitState.closed, none⟩

/-- CircuitBreaker::allow (circuit_breaker.rs lines 48-77): Closed and
HalfOpen allow the call; Open allows it only once the cooldown has elapsed
since the last failure, flipping the state to HalfOpen; an Open breaker
with no recorded failure defensively closes.  The current instant is an
explicit argument (last.elapsed() >= cooldown is now - last >= cooldown). -/
def CircuitBreaker.allow (cb : CircuitBreaker) (now : Nat) : Bool × CircuitBreaker :=
  match cb.state with
  | CircuitState.closed => (true, cb)
  | CircuitState.opened =>
    match cb.last_failure with
    | some last =>
      if cb.cooldown ≤ now - last then
        (true, { cb with state := CircuitState.halfOpen })
      else (false, cb)
    | none => (true, { cb with state := CircuitState.closed })
  | CircuitState.halfOpen => (true, cb)

/-- CircuitBreaker::record_success (circuit_breaker.rs lines 80-94): the
failure count is reset and any non-Closed state closes (the net effect is
always a Closed breaker with a zero count). -/
def CircuitBreaker.record_success (cb : CircuitBreaker) : CircuitBreaker :=
  { cb with failure_count := 0, state := CircuitState.closed }

/-- CircuitBreaker::record_failure (circuit_breaker.rs lines 97-113):
increment the counter, record the instant, and open when the new count has
reached the threshold and the breaker is not already open. -/
def CircuitBreaker.record_failure (cb : CircuitBreaker) (now : Nat) : CircuitBreaker :=
  let count := cb.failure_count + 1
  let cb' := { cb with failure_count := count, last_failure := some now }
  if cb.failure_threshold ≤ count ∧ cb.state ≠ CircuitState.opened then
    { cb' with state := CircuitState.opened }
  else cb'

/-- A run of consecutive failures recorded at the given instants. -/
def CircuitBreaker.record_failures (cb : CircuitBreaker) (times : List Nat) :
    CircuitBreaker :=
  times.foldl CircuitBreaker.record_failure cb

/-! ## Entity merge — crates/engine/src/graph/entities.rs -/

/-- The entity-node fields merge_entities reads and writes. -/
structure MergeEntityRec where
  id : Nat
  canonical_name : String
  aliases : List String
  aliases_text : String
  embedding_pending : Bool
  last_updated : Nat
deriving DecidableEq, Repr

/-- A RELATES_TO edge between entity ids; P is the edge's property bag
(step 3/4's SET r2 = properties(r) copies it wholesale). -/
structure RelEdge (P : Type) where
  src : Nat
  tgt : Nat
  props : P
deriving DecidableEq, Repr

/-- The graph state relevant to a merge: entity nodes, PUBLISHED edges
(entity id, claim id), REFERENCES edges (claim id, entity id), and
RELATES_TO edges. -/
structure GraphState (P : Type) where
  entities : List MergeEntityRec
  published : List (Nat × Nat)
  references : List (Nat × Nat)
  relates : List (RelEdge P)
deriving DecidableEq, Repr

/-- MATCH (e:Entity {id: $id}): the first node carrying the id. -/
def getEntity {P : Type} (g : GraphState P) (id : Nat) : Option MergeEntityRec :=
  g.entities.find? fun e => e.id == id

/-- Step 3 (entities.rs lines 329-341): an outbound RELATES_TO of the
source whose other endpoint is not the target is recreated on the target
with copied properties and the original deleted — per edge, a redirect of
the src endpoint. -/
def redirectOut {P : Type} (s t : Nat) (r : RelEdge P) : RelEdge P :=
  if r.src = s ∧ r.tgt ≠ t then { r with src := t } else r

/-- Step 4 (entities.rs lines 344-356): the same for inbound edges. -/
def redirectIn {P : Type} (s t : Nat) (r : RelEdge P) : RelEdge P :=
  if r.tgt = s ∧ r.src ≠ t then { r with tgt := t } else r

/-- Step 5's deletion predicate (entities.rs line 359): keep only RELATES_TO
edges no longer touching the source. -/
def notTouching {P : Type} (s : Nat) (r : RelEdge P) : Bool :=
  r.src != s && r.tgt != s

/-- The alias union of step 6 (entities.rs lines 366-377): the target's
aliases, then the source's canonical name when absent, then every source
alias absent so far. -/
def combinedAliases (target source : MergeEntityRec) : List String :=
  let c1 :=
    if source.canonical_name ∈ target.aliases then target.aliases
    else target.aliases ++ [source.canonical_name]
  source.aliases.foldl (fun acc a => if a ∈ acc then acc else acc ++ [a]) c1

/-- GraphClient::merge_entities (entities.rs lines 277-416).  A self-merge
errors before any statement runs; a missing endpoint errors from the
get_entity validation.  Otherwise the statements run in order: (1) reassign
PUBLISHED edges of the source to the target, (2) reassign inbound
REFERENCES edges, (3)/(4) redirect outbound and inbound RELATES_TO edges
whose other endpoint is not the target, (5) delete surviving RELATES_TO
edges touching the source, (6) union the source's canonical name and
aliases into the target's alias list, refresh aliases_text and
last_updated, mark embedding_pending, (7) DETACH DELETE the source (the
node and any remaining incident edges).  The source function finally
re-reads and returns the target row; the model returns the whole state. -/
def merge_entities {P : Type} (g : GraphState P) (source_id target_id : Nat)
    (now : Nat) : Except String (GraphState P) :=
  if source_id = target_id then
    Except.error "Cannot merge an entity with itself"
  else
    match getEntity g source_id with
    | none => Except.error ("Not found: Entity " ++ toString source_id)
    | some source =>
      match getEntity g target_id with
      | none => Except.error ("Not found: Entity " ++ toString target_id)
      | some target =>
        let published := g.published.map fun pc =>
          if pc.1 = source_id then (target_id, pc.2) else pc
        let references := g.references.map fun cr =>
          if cr.2 = source_id then (cr.1, target_id) else cr
        let relates :=
          (((g.relates.map (redirectOut source_id target_id)).map
              (redirectIn source_id target_id)).filter
            (notTouching source_id))
        let combined := combinedAliases target source
        let entities := g.entities.map fun e =>
          if e.id = target_id then
            { e with aliases := combined,
                     aliases_text := String.intercalate " " combined,
                     last_updated := now,
                     embedding_pending := true }
          else e
        Except.ok
          { entities := entities.filter fun e => e.id != source_id,
            published := published.filter fun pc => pc.1 != source_id,
            references := references.filter fun cr => cr.2 != source_id,
            relates := relates.filter (notTouching source_id) }

/-- The image of an edge under redirecting the endpoint s to t — "exists on
target with copied properties" in the claim's sense. -/
def movedEdge {P : Type} (s t : Nat) (r : RelEdge P) : RelEdge P :=
  { src := if r.src = s then t else r.src,
    tgt := if r.tgt = s then t else r.tgt,
    props := r.props }

/-! ## Assessment production — crates/engine/src/tools/handlers/produce_assessment.rs -/

/-- Assessment confidence (common/src/types/assessment.rs). -/
inductive Confidence where
  | high
  | moderate
  | low
deriving DecidableEq, Repr

/-- Typed arguments of produce_assessment (produce_assessment.rs, struct
Args); the structured JSON content is the type parameter J. -/
structure ProduceAssessmentArgs (J : Type) where
  content : J
  confidence : String
  entity_refs : List String
  claim_refs : List String

/-- Confidence parsing (produce_assessment.rs lines 48-58). -/
def parseConfidence : String → Except String Confidence
  | "high" => Except.ok Confidence.high
  | "moderate" => Except.ok Confidence.moderate
  | "low" => Except.ok Confidence.low
  | other =>
      Except.error ("Invalid confidence: '" ++ other ++ "'. Use 'high', 'moderate', or 'low'.")

/-- Entity-ref parsing with its error prefix (produce_assessment.rs lines 61-69). -/
def parseEntityRef {U : Type} (parseUuid : String → Except String U) (s : String) :
    Except String U :=
  match parseUuid s with
  | Except.ok u => Except.ok u
  | Except.error e => Except.error ("Invalid entity_ref '" ++ s ++ "': " ++ e)

/-- Claim-ref parsing with its error prefix (produce_assessment.rs lines 72-80). -/
def parseClaimRef {U : Type} (parseUuid : String → Except String U) (s : String) :
    Except String U :=
  match parseUuid s with
  | Except.ok u => Except.ok u
  | Except.error e => Except.error ("Invalid claim_ref '" ++ s ++ "': " ++ e)

/-- The assessment row handed to the store. -/
structure AssessmentRow (J U : Type) where
  content : J
  confidence : Confidence
  entity_refs : List U
  claim_refs : List U
  embedding : Option (List ℚ)

/-- The produce_assessment handler body after a successful decode
(produce_assessment.rs lines 28-124): refuse when the per-session flag is
already set, when no store is configured, or when there is no investigation
context; parse the confidence and the refs; compute the embedding of the
serialized content, where a missing embedding client or a failed embedding
call degrades to a null embedding and never errors; store the row; set the
flag only after a successful store.  Returns the handler result (the stored
row on success) and the new flag value.  The uuid crate, serde
serialization, the embedding client and the store are parameters. -/
def produce_assessment {J U : Type}
    (parseUuid : String → Except String U)
    (serializeContent : J → String)
    (embedClient : Option (String → Except String (List ℚ)))
    (storeCreate : AssessmentRow J U → Except String Unit)
    (flagAlready : Bool) (hasStore : Bool) (hasInvestigation : Bool)
    (args : ProduceAssessmentArgs J) :
    Except String (AssessmentRow J U) × Bool :=
  if flagAlready then
    (Except.error
      "Assessment already produced in this session. Only one assessment per cycle.",
      flagAlready)
  else if hasStore = false then
    (Except.error "Assessment production not available (store not configured)", flagAlready)
  else if hasInvestigation = false then
    (Except.error "Assessment production not available (no investigation context)",
      flagAlready)
  else
    match parseConfidence args.confidence with
    | Except.error e => (Except.error e, flagAlready)
    | Except.ok confidence =>
      match args.entity_refs.mapM (parseEntityRef parseUuid) with
      | Except.error e => (Except.error e, flagAlready)
      | Except.ok entity_refs =>
        match args.claim_refs.mapM (parseClaimRef parseUuid) with
        | Except.error e => (Except.error e, flagAlready)
        | Except.ok claim_refs =>
          let embedding :=
            match embedClient with
            | some embed =>
              match embed (serializeContent args.content) with
              | Except.ok emb => some emb
              | Except.error _ => none
            | none => none
          let row : AssessmentRow J U :=
            ⟨args.content, confidence, entity_refs, claim_refs, embedding⟩
          match storeCreate row with
          | Except.error e => (Except.error ("Failed to store assessment: " ++ e), flagAlready)
          | Except.ok _ => (Except.ok row, true)

/-! ## Concrete instances used by counterexamples and witnesses -/

/-- An LLM that answers every chat call with a single tool-use block
(the shape of the repository's own max-turns test). -/
def c2Chat : Nat → Except LlmError (LlmResponse Unit) := fun _ =>
  Except.ok ⟨[ContentBlock.toolUse "toolu_0" "search" ()], StopReason.toolUse, ⟨0, 0⟩⟩

/-- A tool executor that always succeeds with a well-formed result. -/
def c2Executor : String → Unit → ToolExecutionResult := fun _ _ => ⟨"ok", false, false⟩

/-- Concrete uuid parser accepting one fixed id (stands in for the uuid crate). -/
def c3ParseUuid : String → Except String Nat := fun s =>
  if s = "00000000-0000-0000-0000-000000000001" then Except.ok 1
  else Except.error "invalid length"

/-- Concrete RFC3339 parser accepting one fixed timestamp; on rejection it
produces chrono's message for garbage input. -/
def c3ParseTs : String → Except String Nat := fun s =>
  if s = "2024-01-01T00:00:00Z" then Except.ok 0
  else Except.error "input contains invalid characters"

/-- create_claim arguments whose timestamp is not RFC3339 (all other fields
valid), i.e. a well-formed tool call that fails a domain validation. -/
def c3Args : CreateClaimArgs :=
  ⟨"Acme acquired Foo", "00000000-0000-0000-0000-000000000001", "not-a-date",
    "primary", "assertion", [], none⟩

/-- create_claim arguments that pass every validation. -/
def c3ArgsOk : CreateClaimArgs :=
  ⟨"Acme acquired Foo", "00000000-0000-0000-0000-000000000001",
    "2024-01-01T00:00:00Z", "primary", "assertion", [], none⟩

/-- A one-tool registry holding the create_claim validation chain.  The
decode step is the identity success (the call's JSON arguments decoded into
the typed record), so any error the handler returns is a domain failure. -/
def c3Handlers : String → Option (CreateClaimArgs → Except String String) := fun name =>
  if name = "create_claim" then
    some (runHandler (fun a => Except.ok a)
      (fun a => (createClaimValidate c3ParseUuid c3ParseTs a).map (fun _ => "created")))
  else none

/-- A chat API that is rate limited (without a server retry-after) on the
first two attempts and succeeds on the third. -/
def c4AttemptResult : Nat → Except LlmError String := fun a =>
  if a ≤ 2 then Except.error (LlmError.rateLimited none) else Except.ok "done"

/-- Retry configuration: 3 attempts, 100 ms initial backoff, 10 s cap,
multiplier 2, jitter disabled. -/
def c4Cfg : RetryConfigM := ⟨3, 100, 10000, 2, false⟩

/-- A claim with primary attribution and analysis information type. -/
def c6Claim : ClaimRec :=
  ⟨"claim-1", "Acme plans a merger", "2024-01-01T00:00:00+00:00",
    "2024-01-02T00:00:00+00:00", AttributionDepth.primary,
    InformationType.analysis, none⟩

/-- The node create_claim writes for c6Claim (no embedding): no
information_type property. -/
def c6Node : ClaimNodeProps :=
  ⟨"claim-1", "Acme plans a merger", "2024-01-01T00:00:00+00:00",
    "2024-01-02T00:00:00+00:00", "primary", true, none, none, none⟩

/-- A Jaro-Winkler stand-in for dedup witnesses: full similarity against
one fixed lowercased canonical name, zero otherwise. -/
def c7Jw : String → String → ℚ := fun _ b => if b == "acme corporation" then 1 else 0

/-- Dedup thresholds used by the witnesses. -/
def c7Cfg : DedupConfigM := ⟨1, 1⟩

/-- A fulltext candidate entity. -/
def c7E1 : DedupEntity := ⟨3, "Acme Corporation", ["Acme"]⟩

/-- Probes where only the fulltext index returns a candidate. -/
def c7Db : GraphProbes := ⟨fun _ => none, fun _ => [c7E1], fun _ => none⟩

/-- Probes where the canonical-name equality query hits. -/
def c7DbExact : GraphProbes :=
  ⟨fun q => if q = "acme" then some 7 else none, fun _ => [], fun _ => none⟩

/-- Probes where only the vector index returns a candidate (score 2). -/
def c7DbEmb : GraphProbes := ⟨fun _ => none, fun _ => [], fun _ => some (c7E1, 2)⟩

/-- A graph with two entities and a RELATES_TO self-loop on entity 1. -/
def c8G : GraphState Unit :=
  ⟨[⟨1, "Acme", [], "", false, 0⟩, ⟨2, "Acme Corp", [], "", false, 0⟩],
    [], [], [⟨1, 1, ()⟩]⟩

/-- The state after merging entity 1 into entity 2 in c8G: the self-loop is
gone entirely. -/
def c8Expected : GraphState Unit :=
  ⟨[⟨2, "Acme Corp", ["Acme"], "Acme", true, 5⟩], [], [], []⟩

/-- A graph with a source entity carrying a PUBLISHED edge, an inbound
REFERENCES edge and an outbound RELATES_TO edge to a third entity. -/
def c8W : GraphState Unit :=
  ⟨[⟨1, "Acme", ["AC"], "AC", false, 0⟩, ⟨2, "Acme Corp", [], "", false, 0⟩,
      ⟨4, "Other", [], "", false, 0⟩],
    [(1, 10)], [(10, 1)], [⟨1, 4, ()⟩]⟩

/-- The state after merging entity 1 into entity 2 in c8W. -/
def c8WExpected : GraphState Unit :=
  ⟨[⟨2, "Acme Corp", ["Acme", "AC"], "Acme AC", true, 5⟩, ⟨4, "Other", [], "", false, 0⟩],
    [(2, 10)], [(10, 2)], [⟨2, 4, ()⟩]⟩

/-! ## Theorems -/

/-- The per-turn tool batch never touches the turn counter: only
tool_calls and malformed_tool_calls are updated. -/
theorem execToolBatch_turns {J : Type} (executor : String → J → ToolExecutionResult)
    (uses : List (String × String × J)) (stats : SessionStats) (consecutive : Nat) :
    (execToolBatch executor uses stats consecutive).1.turns = stats.turns := by
  induction uses generalizing stats consecutive with
  | nil => rfl
  | cons u rest ih =>
    obtain ⟨id, name, input⟩ := u
    simp only [execToolBatch]
    split <;> exact ih _ _

/-- Invariant of the session loop: if the loop exits with MaxTurnsReached
then the final turn counter equals max_turns and the number of chat calls
made equals the remaining turn budget (each completed iteration makes
exactly one chat call and increments the turn counter once). -/
theorem runSessionGo_maxTurns {J : Type} (chat : Nat → Except LlmError (LlmResponse J))
    (executor : String → J → ToolExecutionResult) (config : SessionConfig) :
    ∀ fuel history stats consecutive chatCalls s n,
      stats.turns ≤ config.max_turns →
      config.max_turns < stats.turns + fuel →
      runSessionGo chat executor config fuel history stats consecutive chatCalls
        = (SessionResult.maxTurnsReached s, n) →
      s.turns = config.max_turns ∧ n = chatCalls + (config.max_turns - stats.turns) := by
  intro fuel
  induction fuel with
  | zero =>
    intro history stats consecutive chatCalls s n h1 h2 _
    omega
  | succ fuel ih =>
    intro history stats consecutive chatCalls s n h1 h2 h3
    rw [runSessionGo] at h3
    by_cases hge : stats.turns ≥ config.max_turns
    · rw [if_pos hge] at h3
      obtain ⟨h4, h5⟩ := Prod.mk.injEq .. ▸ h3
      obtain rfl : stats = s := SessionResult.maxTurnsReached.injEq .. ▸ h4
      refine ⟨le_antisymm h1 hge, ?_⟩
      omega
    · rw [if_neg hge] at h3
      simp only at h3
      cases hchat : chat chatCalls with
      | error e =>
        rw [hchat] at h3
        simp at h3
      | ok response =>
        rw [hchat] at h3
        simp only at h3
        by_cases hempty : (toolUses response.content).isEmpty
        · rw [if_pos hempty] at h3
          simp at h3
        · rw [if_neg hempty] at h3
          split at h3
          · simp at h3
          · have hturn :
                (execToolBatch executor (toolUses response.content)
                  { stats with
                    turns := stats.turns + 1,
                    total_input_tokens := stats.total_input_tokens + response.usage.input_tokens,
                    total_output_tokens :=
                      stats.total_output_tokens + response.usage.output_tokens }
                  consecutive).1.turns = stats.turns + 1 := by
              rw [execToolBatch_turns]
            have hrec := ih _ _ _ _ s n (by omega) (by omega) h3
            rw [hturn] at hrec
            refine ⟨hrec.1, ?_⟩
            omega

/-- C2 (amended): run_session checks the turn counter against max_turns at
the top of each turn, before incrementing it and before calling the chat
interface; consequently a session that ends in MaxTurnsReached has made
exactly max_turns chat calls (not at most max_turns - 1), and its final
turn count equals max_turns. -/
theorem run_session_maxTurns_chat_calls {J : Type}
    (chat : Nat → Except LlmError (LlmResponse J))
    (executor : String → J → ToolExecutionResult) (config : SessionConfig)
    (msg : String) (s : SessionStats) (n : Nat)
    (h : run_session chat executor config msg = (SessionResult.maxTurnsReached s, n)) :
    n = config.max_turns ∧ s.turns = config.max_turns := by
  have hh := runSessionGo_maxTurns chat executor config (config.max_turns + 1)
    [Message.mk Role.user [ContentBlock.text msg]] initStats 0 0 s n
    (by simp [initStats]) (by simp [initStats]) h
  simp [initStats] at hh
  exact ⟨hh.2, hh.1⟩

/-- C2 witness: the amended theorem applied at a concrete session (an LLM
that always issues a tool call, max_turns = 1): exactly one chat call is
made and the final turn count is 1. -/
theorem run_session_maxTurns_chat_calls_witness :
    1 = (SessionConfig.mk 1 3).max_turns
      ∧ (SessionStats.mk 1 1 0 0 0).turns = (SessionConfig.mk 1 3).max_turns :=
  run_session_maxTurns_chat_calls c2Chat c2Executor ⟨1, 3⟩ "go" ⟨1, 1, 0, 0, 0⟩ 1 rfl

/-- C2 counterexample: with max_turns = 1 and an LLM that always issues a
tool call, the session ends in MaxTurnsReached after exactly 1 chat call;
the claimed bound of at most max_turns - 1 = 0 chat calls is violated
(the source checks the counter before incrementing, so a MaxTurnsReached
session has made exactly max_turns chat calls). -/
theorem run_session_c2_counterexample :
    run_session c2Chat c2Executor ⟨1, 3⟩ "go"
        = (SessionResult.maxTurnsReached ⟨1, 1, 0, 0, 0⟩, 1)
      ∧ ¬ ((run_session c2Chat c2Executor ⟨1, 3⟩ "go").2 ≤ 1 - 1) := by
  exact ⟨rfl, by decide⟩

/-- C1 (amended): the Analyst outcome is derived from the session counters
only when the session completed with text; MaxTurnsReached and
MalformedToolCallLimit are mapped to Failed outcomes regardless of the
counters, as is a session-level failure. -/
theorem analystOutcome_characterization (t e : String) (st st' : SessionStats)
    (wr : Nat) (ap : Bool) :
    analystOutcome (SessionResult.completed t st) wr ap
        = (if ap then AnalystOutcome.assessmentProduced
           else if wr > 0 then AnalystOutcome.workOrdersCreated wr
           else AnalystOutcome.emptySession)
      ∧ analystOutcome (SessionResult.maxTurnsReached st') wr ap
        = AnalystOutcome.failed "Max turns reached"
      ∧ analystOutcome (SessionResult.malformedToolCallLimit st') wr ap
        = AnalystOutcome.failed "Malformed tool call limit reached"
      ∧ analystOutcome (SessionResult.failed e st') wr ap = AnalystOutcome.failed e :=
  ⟨rfl, rfl, rfl, rfl⟩

/-- C1 counterexample: a session that set the assessment_produced flag and
then ended in MaxTurnsReached yields the Failed outcome, not
AssessmentProduced as claimed. -/
theorem analystOutcome_c1_counterexample :
    analystOutcome (SessionResult.maxTurnsReached initStats) 0 true
        = AnalystOutcome.failed "Max turns reached"
      ∧ analystOutcome (SessionResult.maxTurnsReached initStats) 0 true
        ≠ AnalystOutcome.assessmentProduced :=
  ⟨rfl, by decide⟩

/-- A tool batch through an executor that never marks results malformed
leaves the consecutive-malformed counter unchanged on an empty batch and at
zero otherwise. -/
theorem execToolBatch_clean {J : Type} (executor : String → J → ToolExecutionResult)
    (hclean : ∀ n a, (executor n a).is_malformed = false) :
    ∀ uses stats consecutive,
      (execToolBatch executor uses stats consecutive).2.1
        = if uses.isEmpty then consecutive else 0 := by
  intro uses
  induction uses with
  | nil => intro stats consecutive; rfl
  | cons u rest ih =>
    intro stats consecutive
    obtain ⟨id, name, input⟩ := u
    simp only [execToolBatch]
    rw [hclean name input]
    simp only [Bool.false_eq_true, if_false]
    rw [ih]
    simp

/-- The session loop never exits with MalformedToolCallLimit when the
executor never marks a result malformed and the limit is positive. -/
theorem runSessionGo_clean_no_limit {J : Type}
    (chat : Nat → Except LlmError (LlmResponse J))
    (executor : String → J → ToolExecutionResult) (config : SessionConfig)
    (hclean : ∀ n a, (executor n a).is_malformed = false)
    (hpos : 0 < config.max_consecutive_malformed) :
    ∀ fuel history stats chatCalls s n,
      runSessionGo chat executor config fuel history stats 0 chatCalls
        ≠ (SessionResult.malformedToolCallLimit s, n) := by
  intro fuel
  induction fuel with
  | zero => intro history stats chatCalls s n h; simp [runSessionGo] at h
  | succ fuel ih =>
    intro history stats chatCalls s n h
    rw [runSessionGo] at h
    by_cases hge : stats.turns ≥ config.max_turns
    · rw [if_pos hge] at h
      simp at h
    · rw [if_neg hge] at h
      simp only at h
      cases hchat : chat chatCalls with
      | error e => rw [hchat] at h; simp at h
      | ok response =>
        rw [hchat] at h
        simp only at h
        by_cases hempty : (toolUses response.content).isEmpty
        · rw [if_pos hempty] at h
          simp at h
        · rw [if_neg hempty] at h
          have hz : (execToolBatch executor (toolUses response.content)
              { stats with
                turns := stats.turns + 1,
                total_input_tokens := stats.total_input_tokens + response.usage.input_tokens,
                total_output_tokens :=
                  stats.total_output_tokens + response.usage.output_tokens } 0).2.1 = 0 := by
            rw [execToolBatch_clean executor hclean]
            simp [hempty]
          rw [hz] at h
          rw [if_neg (by omega)] at h
          exact ih _ _ _ s n h

/-- C3 (amended): through the registry executor, is_malformed is true iff
the call named an unknown tool or the handler returned an error message
containing one of the substrings "invalid type", "missing field" or
"expected" — a heuristic for serde decode failures that also fires on
domain errors containing those substrings; a successful handler result
carries both flags false; and an executor whose results are never malformed
can never drive a session into MalformedToolCallLimit (with a positive
limit), so only malformed results accumulate toward that limit. -/
theorem executor_malformed_classification {J B : Type}
    (serialize : B → String) (handlers : String → Option (J → Except String B))
    (name : String) (args : J) :
    (handlers name = none →
      executorResult serialize handlers name args
        = ⟨"Unknown tool: '" ++ name ++ "'. Check tool name and try again.", true, true⟩)
    ∧ (∀ h v, handlers name = some h → h args = Except.ok v →
      executorResult serialize handlers name args = ⟨serialize v, false, false⟩)
    ∧ (∀ h msg, handlers name = some h → h args = Except.error msg →
      executorResult serialize handlers name args = ⟨msg, true, classifyMalformed msg⟩)
    ∧ (∀ (J' : Type) (chat : Nat → Except LlmError (LlmResponse J'))
        (executor : String → J' → ToolExecutionResult) (config : SessionConfig)
        (msg : String) (s : SessionStats) (n : Nat),
      (∀ nm a, (executor nm a).is_malformed = false) →
      0 < config.max_consecutive_malformed →
      run_session chat executor config msg ≠ (SessionResult.malformedToolCallLimit s, n)) := by
  refine ⟨?_, ?_, ?_, ?_⟩
  · intro hnone
    simp [executorResult, hnone]
  · intro h v hsome hok
    simp [executorResult, hsome, hok]
  · intro h msg hsome herr
    simp [executorResult, hsome, herr]
  · intro J' chat executor config msg s n hclean hpos
    exact runSessionGo_clean_no_limit chat executor config hclean hpos _ _ _ _ s n

/-- C3 witness: the classification theorem applied at concrete calls — an
unknown tool, a successful create_claim call, a failing create_claim call,
and a session driven by a never-malformed executor. -/
theorem executor_malformed_classification_witness :
    executorResult id c3Handlers "nope" c3Args
        = ⟨"Unknown tool: 'nope'. Check tool name and try again.", true, true⟩
      ∧ executorResult id c3Handlers "create_claim" c3ArgsOk = ⟨"created", false, false⟩
      ∧ executorResult id c3Handlers "create_claim" c3Args
        = ⟨"Invalid published_timestamp (expected RFC3339): input contains invalid characters",
            true,
            classifyMalformed
              "Invalid published_timestamp (expected RFC3339): input contains invalid characters"⟩
      ∧ run_session c2Chat c2Executor ⟨1, 3⟩ "go"
        ≠ (SessionResult.malformedToolCallLimit initStats, 1) := by
  have hthm := executor_malformed_classification (J := CreateClaimArgs) id c3Handlers
    "create_claim" c3Args
  have hthm2 := executor_malformed_classification (J := CreateClaimArgs) id c3Handlers
    "nope" c3Args
  refine ⟨hthm2.1 rfl, ?_, ?_, ?_⟩
  · have hthm3 := executor_malformed_classification (J := CreateClaimArgs) id c3Handlers
      "create_claim" c3ArgsOk
    exact hthm3.2.1 _ "created" rfl rfl
  · exact hthm.2.2.1 _ _ rfl rfl
  · exact hthm.2.2.2 Unit c2Chat c2Executor ⟨1, 3⟩ "go" initStats 1
      (fun _ _ => rfl) (by decide)

/-- C3 counterexample: a domain failure reported by the create_claim handler
after its arguments decoded successfully — an invalid published_timestamp —
produces an error message containing "expected", which the registry's
substring heuristic classifies as malformed: is_malformed is true, not
false as the claim requires for domain failures. -/
theorem executor_c3_counterexample :
    executorResult id c3Handlers "create_claim" c3Args
        = ⟨"Invalid published_timestamp (expected RFC3339): input contains invalid characters",
            true, true⟩
      ∧ (executorResult id c3Handlers "create_claim" c3Args).is_malformed ≠ false := by
  constructor
  · rfl
  · decide

/-- C4 (amended): in the chat-API retry wrapper, a successful attempt
returns immediately; a non-retryable error returns at once with no further
attempt; a rate-limit error before the last attempt sleeps the
server-provided retry-after (in ms) if present and otherwise the current
backoff_ms, and leaves backoff_ms unchanged; any other retryable error
before the last attempt sleeps backoff_ms plus jitter of at most
backoff_ms / 2 and only then updates backoff_ms to
min(floor(backoff_ms x multiplier), max_backoff_ms); and the last error is
returned once attempts = max_attempts. -/
theorem llm_chat_retry_characterization {R : Type}
    (attemptResult : Nat → Except LlmError R) (jitterHash : Nat → Nat)
    (cfg : RetryConfigM) (fuel attempt backoff_ms : Nat) (sleeps : List Nat) :
    (∀ r, attemptResult (attempt + 1) = Except.ok r →
      chatRetryGo attemptResult jitterHash cfg (fuel + 1) attempt backoff_ms sleeps
        = ⟨Except.ok r, attempt + 1, sleeps⟩)
    ∧ (∀ e, attemptResult (attempt + 1) = Except.error e → e.is_non_retryable = true →
      chatRetryGo attemptResult jitterHash cfg (fuel + 1) attempt backoff_ms sleeps
        = ⟨Except.error e, attempt + 1, sleeps⟩)
    ∧ (∀ ra, attemptResult (attempt + 1) = Except.error (LlmError.rateLimited ra) →
      attempt + 1 < cfg.max_attempts →
      chatRetryGo attemptResult jitterHash cfg (fuel + 1) attempt backoff_ms sleeps
        = chatRetryGo attemptResult jitterHash cfg fuel (attempt + 1) backoff_ms
            (sleeps ++ [match ra with | some s => s * 1000 | none => backoff_ms]))
    ∧ (∀ e, attemptResult (attempt + 1) = Except.error e → e.is_non_retryable = false →
      (∀ ra, e ≠ LlmError.rateLimited ra) → attempt + 1 < cfg.max_attempts →
      chatRetryGo attemptResult jitterHash cfg (fuel + 1) attempt backoff_ms sleeps
          = chatRetryGo attemptResult jitterHash cfg fuel (attempt + 1)
              (nextBackoff cfg backoff_ms)
              (sleeps ++ [backoff_ms
                + (if cfg.jitter then computeJitter (jitterHash (attempt + 1)) backoff_ms
                   else 0)])
        ∧ (if cfg.jitter then computeJitter (jitterHash (attempt + 1)) backoff_ms else 0)
            ≤ backoff_ms / 2)
    ∧ (∀ e, attemptResult (attempt + 1) = Except.error e → e.is_non_retryable = false →
      cfg.max_attempts ≤ attempt + 1 →
      chatRetryGo attemptResult jitterHash cfg (fuel + 1) attempt backoff_ms sleeps
        = ⟨Except.error e, attempt + 1, sleeps⟩) := by
  refine ⟨?_, ?_, ?_, ?_, ?_⟩
  · intro r hok
    simp [chatRetryGo, hok]
  · intro e herr hnr
    simp [chatRetryGo, herr, hnr]
  · intro ra herr hlt
    simp only [chatRetryGo, herr]
    rw [if_neg (by simp [LlmError.is_non_retryable])]
    rw [if_neg (by omega)]
  · intro e herr hnr hnotrl hlt
    constructor
    · simp only [chatRetryGo, herr]
      rw [if_neg (by simp [hnr])]
      cases e with
      | rateLimited ra => exact absurd rfl (hnotrl ra)
      | http m => simp [not_le.mpr hlt]
      | auth m => simp [LlmError.is_non_retryable] at hnr
      | contextWindowExceeded m => simp [LlmError.is_non_retryable] at hnr
      | api m => simp [not_le.mpr hlt]
      | parseError m => simp [not_le.mpr hlt]
    · split
      · exact Nat.lt_succ_iff.mp (Nat.mod_lt _ (Nat.succ_pos _))
      · exact Nat.zero_le _
  · intro e herr hnr hge
    simp only [chatRetryGo, herr]
    rw [if_neg (by simp [hnr])]
    cases e with
    | rateLimited ra => simp [hge]
    | http m => simp [hge]
    | auth m => simp [LlmError.is_non_retryable] at hnr
    | contextWindowExceeded m => simp [LlmError.is_non_retryable] at hnr
    | api m => simp [hge]
    | parseError m => simp [hge]

/-- C4 witness: the characterization applied at concrete attempt sequences —
a success, an authentication error, a rate limit before the last attempt,
an HTTP 500 before the last attempt, and an HTTP 500 on the last attempt. -/
theorem llm_chat_retry_characterization_witness :
    chatRetryGo c4AttemptResult (fun _ => 0) c4Cfg 2 2 100 [100, 100]
        = ⟨Except.ok "done", 3, [100, 100]⟩
      ∧ chatRetryGo (fun _ => (Except.error (LlmError.auth "bad key") : Except LlmError String))
          (fun _ => 0) c4Cfg 3 0 100 []
        = ⟨Except.error (LlmError.auth "bad key"), 1, []⟩
      ∧ chatRetryGo c4AttemptResult (fun _ => 0) c4Cfg 4 0 100 []
        = chatRetryGo c4AttemptResult (fun _ => 0) c4Cfg 3 1 100 [100]
      ∧ chatRetryGo (fun _ => (Except.error (LlmError.http "500") : Except LlmError String))
          (fun _ => 0) c4Cfg 4 0 100 []
        = chatRetryGo (fun _ => (Except.error (LlmError.http "500") : Except LlmError String))
            (fun _ => 0) c4Cfg 3 1 (nextBackoff c4Cfg 100) [100 + 0]
      ∧ chatRetryGo (fun _ => (Except.error (LlmError.http "500") : Except LlmError String))
          (fun _ => 0) ⟨1, 100, 10000, 2, false⟩ 1 0 100 []
        = ⟨Except.error (LlmError.http "500"), 1, []⟩ := by
  refine ⟨?_, ?_, ?_, ?_, ?_⟩
  · exact (llm_chat_retry_characterization c4AttemptResult (fun _ => 0) c4Cfg
      1 2 100 [100, 100]).1 "done" rfl
  · exact (llm_chat_retry_characterization
      (fun _ => (Except.error (LlmError.auth "bad key") : Except LlmError String))
      (fun _ => 0) c4Cfg 2 0 100 []).2.1 (LlmError.auth "bad key") rfl rfl
  · exact (llm_chat_retry_characterization c4AttemptResult (fun _ => 0) c4Cfg
      3 0 100 []).2.2.1 none rfl (by decide)
  · exact ((llm_chat_retry_characterization
      (fun _ => (Except.error (LlmError.http "500") : Except LlmError String))
      (fun _ => 0) c4Cfg 3 0 100 []).2.2.2.1 (LlmError.http "500") rfl rfl
      (fun ra h => LlmError.noConfusion h) (by decide)).1
  · exact (llm_chat_retry_characterization
      (fun _ => (Except.error (LlmError.http "500") : Except LlmError String))
      (fun _ => 0) ⟨1, 100, 10000, 2, false⟩ 0 0 100 []).2.2.2.2 (LlmError.http "500")
      rfl rfl (by decide)

/-- C4 counterexample: with initial backoff 100, multiplier 2 and two
rate-limited attempts (no server retry-after), both sleeps are 100 ms — the
backoff is not updated after the rate-limited retry, whereas the claim
mandates it become min(100 x 2, max) = 200 before the second sleep. -/
theorem llm_chat_c4_counterexample :
    llmChat c4AttemptResult (fun _ => 0) c4Cfg = ⟨Except.ok "done", 3, [100, 100]⟩
      ∧ nextBackoff c4Cfg 100 = 200
      ∧ [100, 100] ≠ [100, nextBackoff c4Cfg 100] := by
  have h200 : nextBackoff c4Cfg 100 = 200 := by
    norm_num [nextBackoff, c4Cfg, Rat.floor]
    rfl
  refine ⟨rfl, h200, ?_⟩
  rw [h200]
  simp

/-- C5 (amended): the status-update statements set completed_at exactly when
the new status is terminal — a non-terminal update leaves completed_at
untouched, while a terminal update sets it to the current instant, and
because COALESCE takes the new value first, a second terminal update
overwrites an already-set completed_at with the new instant. -/
theorem store_completed_at_characterization (row : InvestigationRow)
    (status : InvestigationStatus) (increment_cycle : Bool)
    (wrow : WorkOrderRow) (wstatus : WorkOrderStatus)
    (processor_id : Option String) (claims_count : Option Int) (now : Nat) :
    (status.is_terminal = false →
      (update_investigation_status row status increment_cycle now).completed_at
        = row.completed_at)
    ∧ (status.is_terminal = true →
      (update_investigation_status row status increment_cycle now).completed_at = some now)
    ∧ (wstatus ≠ WorkOrderStatus.completed → wstatus ≠ WorkOrderStatus.failed →
      (update_work_order_status wrow wstatus processor_id claims_count now).completed_at
        = wrow.completed_at)
    ∧ (wstatus = WorkOrderStatus.completed ∨ wstatus = WorkOrderStatus.failed →
      (update_work_order_status wrow wstatus processor_id claims_count now).completed_at
        = some now) := by
  refine ⟨?_, ?_, ?_, ?_⟩
  · intro h
    simp [update_investigation_status, h, coalesce]
  · intro h
    simp [update_investigation_status, h, coalesce]
  · intro h1 h2
    cases wstatus with
    | queued => simp [update_work_order_status, coalesce]
    | processing => simp [update_work_order_status, coalesce]
    | completed => exact absurd rfl h1
    | failed => exact absurd rfl h2
  · intro h
    cases h with
    | inl h => subst h; simp [update_work_order_status, coalesce]
    | inr h => subst h; simp [update_work_order_status, coalesce]

/-- C5 witness: the characterization applied at concrete rows — a
non-terminal investigation update keeps completed_at, a terminal work-order
update sets it. -/
theorem store_completed_at_characterization_witness :
    (update_investigation_status ⟨InvestigationStatus.pending, 0, some 5⟩
        InvestigationStatus.processing false 9).completed_at = some 5
      ∧ (update_work_order_status ⟨WorkOrderStatus.processing, none, none, none⟩
          WorkOrderStatus.completed (some "p1") (some 2) 9).completed_at = some 9 := by
  constructor
  · exact (store_completed_at_characterization ⟨InvestigationStatus.pending, 0, some 5⟩
      InvestigationStatus.processing false ⟨WorkOrderStatus.processing, none, none, none⟩
      WorkOrderStatus.completed (some "p1") (some 2) 9).1 rfl
  · exact (store_completed_at_characterization ⟨InvestigationStatus.pending, 0, some 5⟩
      InvestigationStatus.processing false ⟨WorkOrderStatus.processing, none, none, none⟩
      WorkOrderStatus.completed (some "p1") (some 2) 9).2.2.2 (Or.inl rfl)

/-- C5 counterexample: a second terminal update changes an already-set
completed_at — COALESCE(new, old) takes the new instant — contradicting the
claim that completed_at is never changed once set. -/
theorem store_completed_at_c5_counterexample :
    (update_investigation_status ⟨InvestigationStatus.completed, 0, some 5⟩
        InvestigationStatus.failed false 9).completed_at = some 9
      ∧ (update_work_order_status ⟨WorkOrderStatus.completed, none, none, some 5⟩
          WorkOrderStatus.completed none none 9).completed_at = some 9
      ∧ some 9 ≠ (some 5 : Option Nat) :=
  ⟨rfl, rfl, by decide⟩

/-- C6: evaluation of the code at the failing inputs.  create_claim's
attribution match has no arm for Indirect (the node build has no value
there), and the CREATE statement never writes information_type, so reading
the claim back parses the missing property as Assertion: a claim created
with information type Analysis round-trips to Assertion. -/
theorem create_claim_roundtrip_c6_bug :
    attributionDepthStr AttributionDepth.indirect = none
      ∧ createClaimNode c6Claim none = some c6Node
      ∧ c6Node.information_type = none
      ∧ nodeToClaimAttrs c6Node
        = Except.ok (AttributionDepth.primary, InformationType.assertion)
      ∧ c6Claim.information_type = InformationType.analysis
      ∧ InformationType.analysis ≠ InformationType.assertion :=
  ⟨rfl, rfl, rfl, rfl, rfl, by decide⟩

/-- Once the fuzzy accumulator holds a candidate it never returns to none. -/
theorem fuzzyStep_some (jw : String → String → ℚ) (cfg : DedupConfigM)
    (name : String) (e : DedupEntity) (pid : Nat) (ps : ℚ) :
    ∃ q, fuzzyStep jw cfg name (some (pid, ps)) e = some q := by
  simp only [fuzzyStep]
  by_cases h : cfg.fuzzy_threshold ≤ entityFuzzyScore jw name e
  · rw [if_pos h]
    by_cases h2 : ps < entityFuzzyScore jw name e
    · exact ⟨_, by rw [if_pos h2]⟩
    · exact ⟨_, by rw [if_neg h2]⟩
  · exact ⟨_, by rw [if_neg h]⟩

/-- Folding the fuzzy accumulator from a present candidate never yields none. -/
theorem fuzzy_foldl_some (jw : String → String → ℚ) (cfg : DedupConfigM)
    (name : String) :
    ∀ (l : List DedupEntity) (p : Nat × ℚ),
      l.foldl (fuzzyStep jw cfg name) (some p) ≠ none := by
  intro l
  induction l with
  | nil => intro p h; exact Option.noConfusion h
  | cons e rest ih =>
    intro p
    obtain ⟨pid, ps⟩ := p
    simp only [List.foldl_cons]
    obtain ⟨q, hq⟩ := fuzzyStep_some jw cfg name e pid ps
    rw [hq]
    exact ih q

/-- The fuzzy stage returns none exactly when every candidate scores below
the threshold (so a ProbableMatch is produced iff some candidate's best
Jaro-Winkler score reaches the threshold). -/
theorem fuzzy_foldl_none_iff (jw : String → String → ℚ) (cfg : DedupConfigM)
    (name : String) :
    ∀ (l : List DedupEntity),
      l.foldl (fuzzyStep jw cfg name) none = none ↔
        ∀ e ∈ l, entityFuzzyScore jw name e < cfg.fuzzy_threshold := by
  intro l
  induction l with
  | nil => simp
  | cons e rest ih =>
    simp only [List.foldl_cons, List.mem_cons]
    by_cases h : cfg.fuzzy_threshold ≤ entityFuzzyScore jw name e
    · have hstep : fuzzyStep jw cfg name none e
          = some (e.id, entityFuzzyScore jw name e) := by
        simp [fuzzyStep, h]
      rw [hstep]
      constructor
      · intro hcontra
        exact absurd hcontra (fuzzy_foldl_some jw cfg name rest _)
      · intro hall
        exact absurd (hall e (Or.inl rfl)) (not_lt.mpr h)
    · have hstep : fuzzyStep jw cfg name none e = none := by
        simp [fuzzyStep, h]
      rw [hstep, ih]
      constructor
      · intro hall x hx
        cases hx with
        | inl hx => subst hx; exact not_le.mp h
        | inr hx => exact hall x hx
      · intro hall x hx
        exact hall x (Or.inr hx)

/-- Any candidate the fuzzy fold returns scores at least the threshold. -/
theorem fuzzy_foldl_score_ge (jw : String → String → ℚ) (cfg : DedupConfigM)
    (name : String) :
    ∀ (l : List DedupEntity) (acc : Option (Nat × ℚ)),
      (∀ p, acc = some p → cfg.fuzzy_threshold ≤ p.2) →
      ∀ q, l.foldl (fuzzyStep jw cfg name) acc = some q →
        cfg.fuzzy_threshold ≤ q.2 := by
  intro l
  induction l with
  | nil => intro acc hacc q hq; exact hacc q hq
  | cons e rest ih =>
    intro acc hacc q hq
    simp only [List.foldl_cons] at hq
    refine ih _ ?_ q hq
    intro p hp
    simp only [fuzzyStep] at hp
    by_cases h : cfg.fuzzy_threshold ≤ entityFuzzyScore jw name e
    · rw [if_pos h] at hp
      cases acc with
      | none =>
        obtain rfl : (e.id, entityFuzzyScore jw name e) = p := Option.some.injEq .. ▸ hp
        exact h
      | some pr =>
        obtain ⟨pid, ps⟩ := pr
        dsimp only at hp
        split at hp
        · obtain rfl : (e.id, entityFuzzyScore jw name e) = p :=
            Option.some.injEq .. ▸ hp
          exact h
        · exact hacc p hp
    · rw [if_neg h] at hp
      exact hacc p hp

/-- C7: find_duplicate evaluates the dedup stages in order with
short-circuiting — an exact case-folded hit returns ExactMatch; otherwise
the fuzzy stage over the fulltext candidates returns ProbableMatch (stage
FuzzyString, confidence at least the threshold) iff some candidate's best
Jaro-Winkler score over canonical name and aliases reaches fuzzy_threshold;
otherwise, only when a candidate embedding is supplied, the top vector
candidate returns ProbableMatch (stage EmbeddingSimilarity) iff its score
reaches embedding_threshold; otherwise NoMatch. -/
theorem find_duplicate_cascade (jw : String → String → ℚ) (cfg : DedupConfigM)
    (db : GraphProbes) (escape : String → String) (name kind : String)
    (embedding : Option (List ℚ)) :
    (∀ id, exact_string_match db escape name = some id →
      find_duplicate jw cfg db escape name kind embedding = DedupResult.exactMatch id)
    ∧ (exact_string_match db escape name = none →
      ((∃ id conf, find_duplicate jw cfg db escape name kind embedding
          = DedupResult.probableMatch id conf DedupStage.fuzzyString)
        ↔ ∃ e ∈ db.fulltext (escape name),
            cfg.fuzzy_threshold ≤ entityFuzzyScore jw name e))
    ∧ (exact_string_match db escape name = none →
      ∀ id conf, fuzzy_string_match jw cfg db escape name kind = some (id, conf) →
        find_duplicate jw cfg db escape name kind embedding
            = DedupResult.probableMatch id conf DedupStage.fuzzyString
          ∧ cfg.fuzzy_threshold ≤ conf)
    ∧ (exact_string_match db escape name = none →
      fuzzy_string_match jw cfg db escape name kind = none →
      embedding = none →
      find_duplicate jw cfg db escape name kind embedding = DedupResult.noMatch)
    ∧ (exact_string_match db escape name = none →
      fuzzy_string_match jw cfg db escape name kind = none →
      ∀ emb, embedding = some emb →
        (∀ e s, db.vectorTop emb = some (e, s) →
          (cfg.embedding_threshold ≤ s →
            find_duplicate jw cfg db escape name kind embedding
              = DedupResult.probableMatch e.id s DedupStage.embeddingSimilarity)
          ∧ (s < cfg.embedding_threshold →
            find_duplicate jw cfg db escape name kind embedding = DedupResult.noMatch))
        ∧ (db.vectorTop emb = none →
          find_duplicate jw cfg db escape name kind embedding = DedupResult.noMatch)) := by
  refine ⟨?_, ?_, ?_, ?_, ?_⟩
  · intro id hx
    simp [find_duplicate, hx]
  · intro hx
    constructor
    · rintro ⟨id, conf, hfd⟩
      by_contra hno
      push_neg at hno
      have hnone : fuzzy_string_match jw cfg db escape name kind = none :=
        (fuzzy_foldl_none_iff jw cfg name _).mpr hno
      simp only [find_duplicate, hx, hnone] at hfd
      cases embedding with
      | none => simp at hfd
      | some emb =>
        cases h2 : embedding_similarity_match cfg db emb with
        | none => simp [h2] at hfd
        | some pr => obtain ⟨i, c⟩ := pr; simp [h2] at hfd
    · rintro ⟨e, he, hscore⟩
      have hnz : fuzzy_string_match jw cfg db escape name kind ≠ none := by
        intro hn
        have hn' : (db.fulltext (escape name)).foldl (fuzzyStep jw cfg name) none
            = none := hn
        rw [fuzzy_foldl_none_iff] at hn'
        exact absurd hscore (not_le.mpr (hn' e he))
      obtain ⟨⟨id, conf⟩, hsome⟩ := Option.ne_none_iff_exists'.mp hnz
      exact ⟨id, conf, by simp [find_duplicate, hx, hsome]⟩
  · intro hx id conf hsome
    refine ⟨by simp [find_duplicate, hx, hsome], ?_⟩
    exact fuzzy_foldl_score_ge jw cfg name _ none (fun p hp => Option.noConfusion hp)
      (id, conf) hsome
  · intro hx hfz hemb
    subst hemb
    simp [find_duplicate, hx, hfz]
  · intro hx hfz emb hemb
    subst hemb
    constructor
    · intro e s hvec
      constructor
      · intro hthr
        simp [find_duplicate, hx, hfz, embedding_similarity_match, hvec, hthr]
      · intro hlt
        simp [find_duplicate, hx, hfz, embedding_similarity_match, hvec,
          not_le.mpr hlt]
    · intro hvec
      simp [find_duplicate, hx, hfz, embedding_similarity_match, hvec]

/-- C7 witness: the cascade applied at concrete probes — a canonical-name
hit, a fuzzy hit over one fulltext candidate, a run with no embedding, and
a vector-stage hit. -/
theorem find_duplicate_cascade_witness :
    find_duplicate c7Jw c7Cfg c7DbExact id "Acme" "org" none = DedupResult.exactMatch 7
      ∧ find_duplicate c7Jw c7Cfg c7Db id "Acme Inc" "org" none
        = DedupResult.probableMatch 3 1 DedupStage.fuzzyString
      ∧ find_duplicate c7Jw c7Cfg c7DbEmb id "Acme Inc" "org" none = DedupResult.noMatch
      ∧ find_duplicate c7Jw c7Cfg c7DbEmb id "Acme Inc" "org" (some [1])
        = DedupResult.probableMatch 3 2 DedupStage.embeddingSimilarity := by
  refine ⟨?_, ?_, ?_, ?_⟩
  · exact (find_duplicate_cascade c7Jw c7Cfg c7DbExact id "Acme" "org" none).1 7 (by decide)
  · exact ((find_duplicate_cascade c7Jw c7Cfg c7Db id "Acme Inc" "org" none).2.2.1
      (by decide) 3 1 (by decide)).1
  · exact (find_duplicate_cascade c7Jw c7Cfg c7DbEmb id "Acme Inc" "org" none).2.2.2.1
      (by decide) (by decide) rfl
  · exact (((find_duplicate_cascade c7Jw c7Cfg c7DbEmb id "Acme Inc" "org"
      (some [1])).2.2.2.2 (by decide) (by decide) [1] rfl).1 c7E1 2 rfl).1 (by decide)

/-- Below the threshold, consecutive failures leave a closed breaker closed
and just count up. -/
theorem record_failures_below_threshold :
    ∀ (ts : List Nat) (cb : CircuitBreaker), cb.state = CircuitState.closed →
      cb.failure_count + ts.length < cb.failure_threshold →
      (cb.record_failures ts).state = CircuitState.closed
        ∧ (cb.record_failures ts).failure_count = cb.failure_count + ts.length := by
  intro ts
  induction ts with
  | nil => intro cb hst _; exact ⟨hst, rfl⟩
  | cons t rest ih =>
    intro cb hst hlt
    have hstep : cb.record_failure t
        = { cb with failure_count := cb.failure_count + 1, last_failure := some t } := by
      simp only [CircuitBreaker.record_failure]
      rw [if_neg]
      intro hcontra
      simp at hlt
      omega
    have hgoal : cb.record_failures (t :: rest)
        = CircuitBreaker.record_failures
            { cb with failure_count := cb.failure_count + 1, last_failure := some t }
            rest := by
      simp only [CircuitBreaker.record_failures, List.foldl_cons]
      rw [hstep]
    rw [hgoal]
    have := ih { cb with failure_count := cb.failure_count + 1, last_failure := some t }
      hst (by simp at hlt ⊢; omega)
    refine ⟨this.1, ?_⟩
    rw [this.2]
    simp [List.length_cons]
    omega

/-- An open breaker stays open under further failures. -/
theorem record_failures_opened_stays :
    ∀ (ts : List Nat) (cb : CircuitBreaker), cb.state = CircuitState.opened →
      (cb.record_failures ts).state = CircuitState.opened := by
  intro ts
  induction ts with
  | nil => intro cb hst; exact hst
  | cons t rest ih =>
    intro cb hst
    have hstep : (cb.record_failure t).state = CircuitState.opened := by
      simp only [CircuitBreaker.record_failure]
      rw [if_neg]
      · exact hst
      · intro hcontra
        exact hcontra.2 hst
    show (CircuitBreaker.record_failures (cb.record_failure t) rest).state = _
    refine ih _ ?_
    exact hstep

/-- From a closed breaker still below the threshold, a run of failures long
enough to reach the threshold opens the circuit. -/
theorem record_failures_reach_threshold :
    ∀ (ts : List Nat) (cb : CircuitBreaker), cb.state = CircuitState.closed →
      cb.failure_count < cb.failure_threshold →
      cb.failure_threshold ≤ cb.failure_count + ts.length →
      (cb.record_failures ts).state = CircuitState.opened := by
  intro ts
  induction ts with
  | nil => intro cb _ hlt hge; simp at hge; omega
  | cons t rest ih =>
    intro cb hst hlt hge
    by_cases h : cb.failure_threshold ≤ cb.failure_count + 1
    · have hstep : (cb.record_failure t).state = CircuitState.opened := by
        simp only [CircuitBreaker.record_failure]
        rw [if_pos ⟨h, by rw [hst]; intro hx; exact CircuitState.noConfusion hx⟩]
      show (CircuitBreaker.record_failures (cb.record_failure t) rest).state = _
      exact record_failures_opened_stays rest _ hstep
    · have hstep : cb.record_failure t
          = { cb with failure_count := cb.failure_count + 1, last_failure := some t } := by
        simp only [CircuitBreaker.record_failure]
        rw [if_neg]
        intro hcontra
        exact h hcontra.1
      show (CircuitBreaker.record_failures (cb.record_failure t) rest).state = _
      rw [hstep]
      refine ih _ hst (by simp; omega) ?_
      simp at hge ⊢
      omega

/-- C9: the circuit transitions to Open exactly on the failure_threshold-th
consecutive failure — from a fresh closed breaker a run of k failures ends
Open iff k reaches the threshold; record_success resets the count and
closes the breaker from any state (so a half-open success closes it);
allow() returns true in Closed and HalfOpen without changing state, and in
Open returns true exactly when the cooldown has elapsed since the last
recorded failure, at which point the state flips to HalfOpen. -/
theorem circuit_breaker_characterization (threshold cooldown : Nat)
    (ts : List Nat) (cb : CircuitBreaker) (now last : Nat) :
    (1 ≤ threshold →
      (((CircuitBreaker.new threshold cooldown).record_failures ts).state
          = CircuitState.opened
        ↔ threshold ≤ ts.length))
    ∧ (cb.record_success.failure_count = 0
      ∧ cb.record_success.state = CircuitState.closed)
    ∧ (cb.state = CircuitState.closed → cb.allow now = (true, cb))
    ∧ (cb.state = CircuitState.halfOpen → cb.allow now = (true, cb))
    ∧ (cb.state = CircuitState.opened → cb.last_failure = some last →
      (cb.cooldown ≤ now - last →
        cb.allow now = (true, { cb with state := CircuitState.halfOpen }))
      ∧ (now - last < cb.cooldown → cb.allow now = (false, cb))) := by
  refine ⟨?_, ⟨rfl, rfl⟩, ?_, ?_, ?_⟩
  · intro hthr
    constructor
    · intro hopen
      by_contra hlen
      push_neg at hlen
      have := record_failures_below_threshold ts (CircuitBreaker.new threshold cooldown)
        rfl (by simp [CircuitBreaker.new]; omega)
      rw [hopen] at this
      exact CircuitState.noConfusion this.1
    · intro hlen
      exact record_failures_reach_threshold ts (CircuitBreaker.new threshold cooldown)
        rfl (by simp [CircuitBreaker.new]; omega) (by simp [CircuitBreaker.new]; omega)
  · intro hst
    simp [CircuitBreaker.allow, hst]
  · intro hst
    simp [CircuitBreaker.allow, hst]
  · intro hst hlast
    constructor
    · intro hcd
      simp [CircuitBreaker.allow, hst, hlast, hcd]
    · intro hcd
      simp [CircuitBreaker.allow, hst, hlast, not_le.mpr hcd]

/-- C9 witness: the characterization at a breaker with threshold 3 and
cooldown 60 — two failures keep it closed, the third opens it, allow after
the cooldown flips it to half-open, and a half-open success closes it. -/
theorem circuit_breaker_characterization_witness :
    ¬ ((CircuitBreaker.new 3 60).record_failures [0, 1]).state = CircuitState.opened
      ∧ ((CircuitBreaker.new 3 60).record_failures [0, 1, 2]).state = CircuitState.opened
      ∧ (CircuitBreaker.mk 3 3 60 CircuitState.opened (some 2)).allow 100
        = (true, CircuitBreaker.mk 3 3 60 CircuitState.halfOpen (some 2))
      ∧ (CircuitBreaker.mk 3 3 60 CircuitState.opened (some 2)).allow 30
        = (false, CircuitBreaker.mk 3 3 60 CircuitState.opened (some 2))
      ∧ (CircuitBreaker.mk 3 3 60 CircuitState.halfOpen (some 2)).record_success.state
        = CircuitState.closed := by
  refine ⟨?_, ?_, ?_, ?_, ?_⟩
  · intro h
    have := (circuit_breaker_characterization 3 60 [0, 1]
      (CircuitBreaker.new 3 60) 0 0).1 (by decide)
    have h3 := this.mp h
    simp at h3
  · exact ((circuit_breaker_characterization 3 60 [0, 1, 2]
      (CircuitBreaker.new 3 60) 0 0).1 (by decide)).mpr (by decide)
  · exact ((circuit_breaker_characterization 3 60 []
      (CircuitBreaker.mk 3 3 60 CircuitState.opened (some 2)) 100 2).2.2.2.2
      rfl rfl).1 (by decide)
  · exact ((circuit_breaker_characterization 3 60 []
      (CircuitBreaker.mk 3 3 60 CircuitState.opened (some 2)) 30 2).2.2.2.2
      rfl rfl).2 (by decide)
  · exact (circuit_breaker_characterization 3 60 []
      (CircuitBreaker.mk 3 3 60 CircuitState.halfOpen (some 2)) 0 0).2.1.2

/-- C10: when the flag is not yet set, the context is available, the
arguments validate and the store write succeeds, produce_assessment with no
embedding client — or with an embedding client whose call fails — persists
the row with a null embedding, sets the assessment_produced flag and
returns success; an embedding failure never surfaces as a tool error. -/
theorem produce_assessment_embedding_degrades {J U : Type}
    (parseUuid : String → Except String U) (serializeContent : J → String)
    (embedClient : Option (String → Except String (List ℚ)))
    (storeCreate : AssessmentRow J U → Except String Unit)
    (args : ProduceAssessmentArgs J) (c : Confidence) (erefs crefs : List U)
    (hconf : parseConfidence args.confidence = Except.ok c)
    (herefs : args.entity_refs.mapM (parseEntityRef parseUuid) = Except.ok erefs)
    (hcrefs : args.claim_refs.mapM (parseClaimRef parseUuid) = Except.ok crefs)
    (hstoreok : ∀ r, storeCreate r = Except.ok ())
    (hembed : embedClient = none
      ∨ ∃ f msg, embedClient = some f
          ∧ f (serializeContent args.content) = Except.error msg) :
    produce_assessment parseUuid serializeContent embedClient storeCreate
        false true true args
      = (Except.ok ⟨args.content, c, erefs, crefs, none⟩, true) := by
  have herefs' : List.mapM.loop (parseEntityRef parseUuid) args.entity_refs []
      = Except.ok erefs := by simpa [List.mapM] using herefs
  have hcrefs' : List.mapM.loop (parseClaimRef parseUuid) args.claim_refs []
      = Except.ok crefs := by simpa [List.mapM] using hcrefs
  cases hembed with
  | inl h =>
    subst h
    simp [produce_assessment, hconf, herefs', hcrefs', hstoreok]
  | inr h =>
    obtain ⟨f, msg, hf, hfail⟩ := h
    subst hf
    simp [produce_assessment, hconf, herefs', hcrefs', hstoreok, hfail]

/-- C10 witness: the theorem applied at a concrete call with no embedding
client and again with a failing embedding client. -/
theorem produce_assessment_embedding_degrades_witness :
    produce_assessment (U := Nat) c3ParseUuid (fun (s : String) => s) none
        (fun _ => Except.ok ()) false true true ⟨"findings", "high", [], []⟩
      = (Except.ok ⟨"findings", Confidence.high, [], [], none⟩, true)
    ∧ produce_assessment (U := Nat) c3ParseUuid (fun (s : String) => s)
        (some (fun _ => Except.error "embedding API down"))
        (fun _ => Except.ok ()) false true true ⟨"findings", "high", [], []⟩
      = (Except.ok ⟨"findings", Confidence.high, [], [], none⟩, true) := by
  constructor
  · exact produce_assessment_embedding_degrades c3ParseUuid (fun s => s) none
      (fun _ => Except.ok ()) ⟨"findings", "high", [], []⟩ Confidence.high [] []
      rfl rfl rfl (fun _ => rfl) (Or.inl rfl)
  · exact produce_assessment_embedding_degrades c3ParseUuid (fun s => s)
      (some (fun _ => Except.error "embedding API down"))
      (fun _ => Except.ok ()) ⟨"findings", "high", [], []⟩ Confidence.high [] []
      rfl rfl rfl (fun _ => rfl)
      (Or.inr ⟨fun _ => Except.error "embedding API down", "embedding API down", rfl, rfl⟩)

/-- Looking up an id in a mapped-and-filtered node list: when the map only
rewrites the target node (preserving ids) and the filter drops another id,
the first node carrying the target id is the image of the original one. -/
theorem find_map_filter_target (s t : Nat) (hst : s ≠ t)
    (f : MergeEntityRec → MergeEntityRec)
    (hf : ∀ e, e.id ≠ t → f e = e) (hfid : ∀ e, (f e).id = e.id) :
    ∀ (l : List MergeEntityRec) (te : MergeEntityRec),
      l.find? (fun e => e.id == t) = some te →
      ((l.map f).filter (fun e => e.id != s)).find? (fun e => e.id == t)
        = some (f te) := by
  intro l
  induction l with
  | nil => intro te h; simp at h
  | cons x xs ih =>
    intro te h
    by_cases hx : x.id = t
    · rw [List.find?_cons_of_pos _ (by simp [hx])] at h
      obtain rfl : x = te := Option.some.inj h
      simp only [List.map_cons]
      rw [List.filter_cons_of_pos (by rw [hfid]; simp [hx]; exact Ne.symm hst)]
      rw [List.find?_cons_of_pos _ (by rw [hfid]; simp [hx])]
    · rw [List.find?_cons_of_neg _ (by simp [hx])] at h
      simp only [List.map_cons]
      rw [hf x hx]
      by_cases hxs : x.id = s
      · rw [List.filter_cons_of_neg (by simp [hxs])]
        exact ih te h
      · rw [List.filter_cons_of_pos (by simp [hxs])]
        rw [List.find?_cons_of_neg _ (by simp [hx])]
        exact ih te h

/-- C8 (amended): for every pair of existing entities with source distinct
from target, a successful merge_entities leaves no node with the source id;
every former PUBLISHED edge of the source exists on the target, as does
every former inbound REFERENCES edge; every former RELATES_TO edge touching
the source either exists on the target with copied properties, or was an
edge between source and target, or was a self-loop on the source (such
loops are recreated on the target by step 3 and then removed by the step-5
cleanup, so they are dropped); the target's aliases become the union of its
aliases with the source's canonical name and aliases, with aliases_text
refreshed and embedding_pending set; and a self-merge returns an error
without producing a state. -/
theorem merge_entities_characterization {P : Type} (g : GraphState P)
    (s t now : Nat) (source target : MergeEntityRec) (g' : GraphState P)
    (hst : s ≠ t) (hs : getEntity g s = some source)
    (ht : getEntity g t = some target)
    (hok : merge_entities g s t now = Except.ok g') :
    getEntity g' s = none
    ∧ (∀ pc ∈ g.published, pc.1 = s → (t, pc.2) ∈ g'.published)
    ∧ (∀ cr ∈ g.references, cr.2 = s → (cr.1, t) ∈ g'.references)
    ∧ (∀ r ∈ g.relates, r.src = s ∨ r.tgt = s →
        movedEdge s t r ∈ g'.relates
          ∨ (r.src = s ∧ r.tgt = t) ∨ (r.src = t ∧ r.tgt = s)
          ∨ (r.src = s ∧ r.tgt = s))
    ∧ getEntity g' t
        = some { target with
            aliases := combinedAliases target source,
            aliases_text := String.intercalate " " (combinedAliases target source),
            last_updated := now,
            embedding_pending := true }
    ∧ (∀ (g₂ : GraphState P) (x n : Nat),
        merge_entities g₂ x x n = Except.error "Cannot merge an entity with itself") := by
  rw [merge_entities, if_neg hst, hs, ht] at hok
  simp only at hok
  obtain rfl : _ = g' := Except.ok.inj hok
  refine ⟨?_, ?_, ?_, ?_, ?_, ?_⟩
  · rw [getEntity, List.find?_eq_none]
    intro x hx
    rw [List.mem_filter] at hx
    simpa using hx.2
  · intro pc hpc hfst
    refine List.mem_filter.mpr ⟨?_, by simpa using Ne.symm hst⟩
    have himg := List.mem_map_of_mem
      (fun pc => if pc.1 = s then (t, pc.2) else pc) hpc
    simpa [hfst] using himg
  · intro cr hcr hsnd
    refine List.mem_filter.mpr ⟨?_, by simpa using Ne.symm hst⟩
    have himg := List.mem_map_of_mem
      (fun cr => if cr.2 = s then (cr.1, t) else cr) hcr
    simpa [hsnd] using himg
  · intro r hr htouch
    by_cases h1 : r.src = s
    · by_cases h2 : r.tgt = t
      · exact Or.inr (Or.inl ⟨h1, h2⟩)
      · by_cases h3 : r.tgt = s
        · exact Or.inr (Or.inr (Or.inr ⟨h1, h3⟩))
        · left
          have e1 : redirectOut s t r = { r with src := t } := by
            simp [redirectOut, h1, h2]
          have e2 : redirectIn s t { r with src := t } = { r with src := t } := by
            simp [redirectIn]
          have emoved : movedEdge s t r = { r with src := t } := by
            simp [movedEdge, h1, h3]
          rw [emoved]
          have hm1 := List.mem_map_of_mem (redirectOut s t) hr
          rw [e1] at hm1
          have hm2 := List.mem_map_of_mem (redirectIn s t) hm1
          rw [e2] at hm2
          have hkeep : notTouching s ({ r with src := t } : RelEdge P) = true := by
            simp [notTouching]
            exact ⟨Ne.symm hst, h3⟩
          exact List.mem_filter.mpr ⟨List.mem_filter.mpr ⟨hm2, hkeep⟩, hkeep⟩
    · have h4 : r.tgt = s := htouch.resolve_left h1
      by_cases h5 : r.src = t
      · exact Or.inr (Or.inr (Or.inl ⟨h5, h4⟩))
      · left
        have e1 : redirectOut s t r = r := by
          simp [redirectOut, h1]
        have e2 : redirectIn s t r = { r with tgt := t } := by
          simp [redirectIn, h4, h5]
        have emoved : movedEdge s t r = { r with tgt := t } := by
          simp [movedEdge, h1, h4]
        rw [emoved]
        have hm1 := List.mem_map_of_mem (redirectOut s t) hr
        rw [e1] at hm1
        have hm2 := List.mem_map_of_mem (redirectIn s t) hm1
        rw [e2] at hm2
        have hkeep : notTouching s ({ r with tgt := t } : RelEdge P) = true := by
          simp [notTouching]
          exact ⟨h1, Ne.symm hst⟩
        exact List.mem_filter.mpr ⟨List.mem_filter.mpr ⟨hm2, hkeep⟩, hkeep⟩
  · have htid : target.id = t := by
      have := List.find?_some ht
      simpa using this
    have := find_map_filter_target s t hst
      (fun e =>
        if e.id = t then
          { e with aliases := combinedAliases target source,
                   aliases_text := String.intercalate " " (combinedAliases target source),
                   last_updated := now,
                   embedding_pending := true }
        else e)
      (fun e he => if_neg he)
      (fun e => by by_cases he : e.id = t <;> simp [he])
      g.entities target ht
    simpa [getEntity, htid] using this
  · intro g₂ x n
    simp [merge_entities]

/-- C8 witness: the amended characterization at a concrete merge of entity
1 into entity 2 with a PUBLISHED edge, an inbound REFERENCES edge and an
outbound RELATES_TO edge; plus one self-merge instance. -/
theorem merge_entities_characterization_witness :
    getEntity c8WExpected 1 = none
      ∧ (2, 10) ∈ c8WExpected.published
      ∧ (10, 2) ∈ c8WExpected.references
      ∧ (movedEdge 1 2 (RelEdge.mk 1 4 ()) ∈ c8WExpected.relates
          ∨ ((1 : Nat) = 1 ∧ (4 : Nat) = 2) ∨ ((1 : Nat) = 2 ∧ (4 : Nat) = 1)
          ∨ ((1 : Nat) = 1 ∧ (4 : Nat) = 1))
      ∧ getEntity c8WExpected 2
        = some (MergeEntityRec.mk 2 "Acme Corp" ["Acme", "AC"] "Acme AC" true 5)
      ∧ merge_entities c8G 3 3 0
        = (Except.error "Cannot merge an entity with itself" : Except String (GraphState Unit)) := by
  have h := merge_entities_characterization c8W 1 2 5
    (MergeEntityRec.mk 1 "Acme" ["AC"] "AC" false 0)
    (MergeEntityRec.mk 2 "Acme Corp" [] "" false 0)
    c8WExpected (by decide) rfl rfl rfl
  exact ⟨h.1, h.2.1 (1, 10) (by decide) rfl, h.2.2.1 (10, 1) (by decide) rfl,
    h.2.2.2.1 (RelEdge.mk 1 4 ()) (by decide) (Or.inl rfl),
    h.2.2.2.2.1, h.2.2.2.2.2 c8G 3 0⟩

/-- C8 counterexample: a RELATES_TO self-loop on the source (creatable, as
create_relationship has no distinctness guard) is dropped by the merge — it
neither exists on the target nor was a self-edge between source and target,
so the claimed dichotomy fails. -/
theorem merge_entities_c8_counterexample :
    merge_entities c8G 1 2 5 = Except.ok c8Expected
      ∧ RelEdge.mk 1 1 () ∈ c8G.relates
      ∧ (RelEdge.mk 1 1 ()).src = 1
      ∧ ¬ (movedEdge 1 2 (RelEdge.mk 1 1 ()) ∈ c8Expected.relates
            ∨ ((1 : Nat) = 1 ∧ (1 : Nat) = 2) ∨ ((1 : Nat) = 2 ∧ (1 : Nat) = 1)) := by
  refine ⟨rfl, by decide, rfl, ?_⟩
  intro h
  rcases h with h | h | h
  · simp [movedEdge, c8Expected] at h
  · exact absurd h.2 (by decide)
  · exact absurd h.1 (by decide)

end AutOSINT
